import Mathlib

/-!
Verification of the seat distribution and assignment engine of the
exam-seating-generator repository (src/app/api/generate-seating/route.ts,
first variant of the file).  The TypeScript functions are shallowly embedded
as executable Lean definitions:

  getAdjacentClasses, assignSeatsSmartly, calculateRoomDistribution,
  distributeStudentsWithMinPerClass, and the POST handler.

Randomness in the source (array shuffles implemented as
sort with a random comparator, and Math.random index picks) is modelled by
explicit oracle parameters: a shuffle function per call site and a pick
function per seat cell.  Universally quantified theorems hold for every
oracle, hence for every behaviour of the random source; counterexamples
instantiate the oracle with the identity shuffle and constant picks, which
are behaviours the source can exhibit.
-/

set_option maxRecDepth 20000

namespace ExamSeating

/-- A roster record as consumed by the generate-seating route:
name, class label (the sub-group) and grade (the partition key). -/
structure Student where
  name : String
  className : String
  grade : String
deriving DecidableEq, Repr

/-- The SeatAssignment interface of route.ts. -/
structure SeatAssignment where
  seatNumber : Nat
  name : String
  examId : String
  roomNumber : Nat
  row : Nat
  col : Nat
  className : String
  grade : String
deriving DecidableEq, Repr

/-- JS String(n).padStart(2, "0") for a natural number n. -/
def padStart2 (s : String) : String :=
  if s.length < 2 then String.mk (List.replicate (2 - s.length) '0') ++ s else s

/-- String(n).padStart(2, "0"). -/
def pad2 (n : Nat) : String :=
  padStart2 (Nat.repr n)

/-- gradePrefixes[grade] || "00011": record lookup with the default used when
the key is absent or its value is the empty string (both falsy in JS). -/
def pfxFor (gradePrefixes : List (String × String)) (grade : String) : String :=
  match gradePrefixes.find? (fun e => e.fst = grade) with
  | some e => if e.snd = "" then "00011" else e.snd
  | none => "00011"

/-- The exam identifier composed in assignSeatsSmartly:
prefix + zero-padded room number + zero-padded seat number. -/
def examIdOf (gradePrefixes : List (String × String)) (grade : String)
    (roomNumber seatNumber : Nat) : String :=
  pfxFor gradePrefixes grade ++ pad2 roomNumber ++ pad2 seatNumber

/-- The seat grid: rows of 6 cells, each cell either empty or holding a
SeatAssignment, as in route.ts. -/
abbrev Grid := List (List (Option SeatAssignment))

/-- grid[row][col], none when out of bounds. -/
def gridGet (g : Grid) (row col : Nat) : Option SeatAssignment :=
  (g.getD row []).getD col none

/-- grid[row][col] = v (no-op out of bounds, as the loop never leaves the grid). -/
def gridSet (g : Grid) (row col : Nat) (v : Option SeatAssignment) : Grid :=
  g.set row ((g.getD row []).set col v)

/-- The fresh rows x 6 grid of route.ts (Array(rows).fill(null).map(Array(cols).fill(null))). -/
def mkGrid (rows : Nat) : Grid :=
  List.replicate rows (List.replicate 6 none)

/-- maxCols = grid[0]?.length || 6. -/
def gridCols (g : Grid) : Nat :=
  match g.head? with
  | some r0 => if r0.length = 0 then 6 else r0.length
  | none => 6

/-- One direction probe of getAdjacentClasses: bounds check, cell lookup,
and insertion of a non-empty class label into the set (modelled as a
duplicate-free list; only membership is consumed). -/
def adjProbe (g : Grid) (row col : Nat) (acc : List String) (d : Int × Int) :
    List String :=
  let newRow : Int := (row : Int) + d.fst
  let newCol : Int := (col : Int) + d.snd
  if 0 ≤ newRow ∧ newRow < (g.length : Int) ∧ 0 ≤ newCol ∧ newCol < (gridCols g : Int) then
    match gridGet g newRow.toNat newCol.toNat with
    | some s => if s.className ≠ "" ∧ ¬ acc.contains s.className then
                  acc ++ [s.className]
                else acc
    | none => acc
  else acc

/-- getAdjacentClasses of route.ts: the class labels found among the four
neighbours (up, down, left, right) of a cell, empty labels excluded. -/
def getAdjacentClasses (g : Grid) (row col : Nat) : List String :=
  [(-1, 0), (1, 0), (0, -1), (0, 1)].foldl (adjProbe g row col) []

/-- First selection round of assignSeatsSmartly: the first pool member whose
class is not among the adjacent classes. -/
def pickRound1 (pool : List Student) (adj : List String) : Option Nat :=
  pool.findIdx? (fun s => ! adj.contains s.className)

/-- Second selection round of assignSeatsSmartly: among members whose class is
not adjacent, the first one of the class with strictly the most remaining
members (maxCount starts at -1, strict improvement keeps the first maximum). -/
def pickRound2 (pool : List Student) (adj : List String) : Option Nat :=
  let counts : String → Int := fun cn => (pool.countP (fun s => s.className = cn) : Int)
  (pool.enum.foldl
    (fun best e =>
      if ¬ adj.contains e.snd.className ∧ counts e.snd.className > best.snd then
        (some e.fst, counts e.snd.className)
      else best)
    ((none : Option Nat), (-1 : Int))).fst

/-- State of the seat-assignment loop.  The fallback flag is ghost
instrumentation: it records whether the final random branch of the selection
was ever taken; the grid and pool evolve exactly as in the source and never
read the flag. -/
structure AssignState where
  grid : Grid
  pool : List Student
  fallback : Bool

/-- Build the SeatAssignment record pushed into the grid for the chosen
student at a cell (0-based row and col here; the record stores them 1-based). -/
def mkSeat (gradePrefixes : List (String × String)) (roomNumber : Nat)
    (s : Student) (row col rows : Nat) : SeatAssignment :=
  { seatNumber := col * rows + row + 1
    name := s.name
    examId := examIdOf gradePrefixes s.grade roomNumber (col * rows + row + 1)
    roomNumber := roomNumber
    row := row + 1
    col := col + 1
    className := s.className
    grade := s.grade }

/-- The placement tail of one loop iteration of assignSeatsSmartly: read the
selected pool member, write its SeatAssignment into the grid cell and remove
it from the pool.  fb is the ghost mark of the random branch. -/
def placeStudent (gradePrefixes : List (String × String)) (roomNumber : Nat)
    (st : AssignState) (row col : Nat) (fb : Bool) (i : Nat) : AssignState :=
  match st.pool.get? i with
  | some s =>
      { grid := gridSet st.grid row col
          (some (mkSeat gradePrefixes roomNumber s row col st.grid.length))
        pool := st.pool.eraseIdx i
        fallback := st.fallback || fb }
  | none => st

/-- One iteration of the nested row/column loop of assignSeatsSmartly:
try round 1, then round 2, then a random member (oracle pick); place the
selected student and drop it from the pool.  With an empty pool nothing
is selected and the cell stays empty. -/
def assignStep (gradePrefixes : List (String × String)) (roomNumber : Nat)
    (picks : Nat → Nat) (st : AssignState) (cell : Nat × Nat) : AssignState :=
  let row := cell.fst
  let col := cell.snd
  let adj := getAdjacentClasses st.grid row col
  match pickRound1 st.pool adj with
  | some i => placeStudent gradePrefixes roomNumber st row col false i
  | none =>
      if st.pool.length > 0 then
        match pickRound2 st.pool adj with
        | some i => placeStudent gradePrefixes roomNumber st row col false i
        | none =>
            placeStudent gradePrefixes roomNumber st row col true
              (picks (col * st.grid.length + row) % st.pool.length)
      else st

/-- The cells in traversal order of the source: row 0..rows-1 outer,
column 0..5 inner. -/
def cellList (rows : Nat) : List (Nat × Nat) :=
  (List.range rows).flatMap (fun r => (List.range 6).map (fun c => (r, c)))

/-- The whole assignment loop of assignSeatsSmartly, returning the final
grid, the leftover pool and the ghost fallback flag. -/
def assignFinal (students : List Student) (gradePrefixes : List (String × String))
    (roomNumber maxSeats : Nat) (picks : Nat → Nat) : AssignState :=
  let rows := (maxSeats + 5) / 6
  (cellList rows).foldl (assignStep gradePrefixes roomNumber picks)
    { grid := mkGrid rows, pool := students, fallback := false }

/-- Reading the grid back in column-major order (column 0 top to bottom,
then column 1, ...), skipping empty cells, as at the end of assignSeatsSmartly. -/
def seatsOf (g : Grid) : List SeatAssignment :=
  (List.range (gridCols g)).flatMap
    (fun c => (List.range g.length).filterMap (fun r => gridGet g r c))

/-- assignSeatsSmartly of route.ts.  The picks oracle stands for the
Math.random() fallback: at the cell with seat index k and a pool of length n
the source draws some index < n; the oracle realises it as picks k % n. -/
def assignSeatsSmartly (students : List Student) (gradePrefixes : List (String × String))
    (roomNumber : Nat) (maxSeats : Nat) (picks : Nat → Nat) : List SeatAssignment :=
  seatsOf (assignFinal students gradePrefixes roomNumber maxSeats picks).grid

/-- calculateRoomDistribution of route.ts.  The strategy is the raw string of
the source ("last" | "separate" | anything else = average). -/
def calculateRoomDistribution (totalStudents studentsPerRoom : Nat)
    (strategy : String) : List Nat :=
  let fullRooms := totalStudents / studentsPerRoom
  let remainder := totalStudents % studentsPerRoom
  if remainder = 0 then
    List.replicate fullRooms studentsPerRoom
  else if strategy = "last" then
    let roomSizes := List.replicate fullRooms studentsPerRoom
    if fullRooms > 0 then
      roomSizes.set (roomSizes.length - 1) (studentsPerRoom + remainder)
    else
      roomSizes ++ [remainder]
  else if strategy = "separate" then
    List.replicate fullRooms studentsPerRoom ++ [remainder]
  else
    let baseSize := totalStudents / (fullRooms + 1)
    let extra := totalStudents % (fullRooms + 1)
    (List.range (fullRooms + 1)).map (fun i => baseSize + if i < extra then 1 else 0)

/-- Random oracle for one partition run of the allocator: one shuffle
function per shuffle site of the source (the quota-free shuffle, the
per-class shuffles, the per-room shuffles) and one pick oracle per room
for the assignSeatsSmartly fallback. -/
structure PartRng where
  shuffle0 : List Student → List Student
  classShuffle : Nat → List Student → List Student
  roomShuffle : Nat → List Student → List Student
  roomPicks : Nat → Nat → Nat

/-- The identity random behaviour: shuffles leave lists unchanged (a sort
with a random comparator can return its input), picks always draw index 0. -/
def idRng : PartRng :=
  { shuffle0 := id
    classShuffle := fun _ l => l
    roomShuffle := fun _ l => l
    roomPicks := fun _ _ => 0 }

/-- The oracle only returns members of the list it shuffles (true of every
permutation, hence of every behaviour of the source shuffles). -/
def RngMem (rng : PartRng) : Prop :=
  (∀ l x, x ∈ rng.shuffle0 l → x ∈ l) ∧
  (∀ i l x, x ∈ rng.classShuffle i l → x ∈ l) ∧
  (∀ i l x, x ∈ rng.roomShuffle i l → x ∈ l)

/-- Insertion-ordered map from class names to student lists, as the JS Map
grows in route.ts: a new key is appended at the end, an existing key has the
new students appended to its list. -/
abbrev StudentMap := List (String × List Student)

/-- map.get(k).push(...xs), creating the entry when absent. -/
def mapPush (m : StudentMap) (k : String) (xs : List Student) : StudentMap :=
  if m.any (fun e => e.fst = k) then
    m.map (fun e => if e.fst = k then (e.fst, e.snd ++ xs) else e)
  else m ++ [(k, xs)]

/-- One step of the studentsByClass grouping loop. -/
def groupStep (m : StudentMap) (s : Student) : StudentMap :=
  mapPush m s.className [s]

/-- Group students by class name in encounter order (the studentsByClass Map). -/
def groupByClass (students : List Student) : StudentMap :=
  students.foldl groupStep []

/-- Insertion-ordered count map (the classCountsByRoom entries). -/
abbrev CountMap := List (String × Nat)

/-- counts.get(k) || 0. -/
def countGet (m : CountMap) (k : String) : Nat :=
  match m.find? (fun e => e.fst = k) with
  | some e => e.snd
  | none => 0

/-- counts.set(k, n): overwrite or append. -/
def countSet (m : CountMap) (k : String) (n : Nat) : CountMap :=
  if m.any (fun e => e.fst = k) then
    m.map (fun e => if e.fst = k then (e.fst, n) else e)
  else m ++ [(k, n)]

/-- forEach student: counts.set(class, (counts.get(class) || 0) + 1). -/
def addCounts (m : CountMap) (moved : List Student) : CountMap :=
  moved.foldl (fun acc s => countSet acc s.className (countGet acc s.className + 1)) m

/-- The round-robin tail of phase 1: remaining class members are appended to
rooms (studentIndex - actualRooms*min) % actualRooms in order; offset counts
the members already handed out by this loop. -/
def roundRobin (acc : List StudentMap) (className : String)
    (actualRooms : Nat) : List Student → Nat → List StudentMap
  | [], _ => acc
  | s :: rest, offset =>
      let ri := offset % actualRooms
      roundRobin (acc.set ri (mapPush (acc.getD ri []) className [s])) className
        actualRooms rest (offset + 1)

/-- Phase 1 of distributeStudentsWithMinPerClass for one class: seed
min-per-room blocks into the first usable rooms, the rest round-robin; a
class smaller than the quota goes wholly into room 1. -/
def seedClass (numRooms minQ : Nat) (acc : List StudentMap) (className : String)
    (shuffled : List Student) : List StudentMap :=
  let classSize := shuffled.length
  let maxRoomsForClass := classSize / minQ
  let actualRooms := min maxRoomsForClass numRooms
  if actualRooms = 0 then
    acc.set 0 (mapPush (acc.getD 0 []) className shuffled)
  else
    let seeded := (List.range actualRooms).foldl
      (fun a i => a.set i (mapPush (a.getD i []) className
        ((shuffled.drop (i * minQ)).take minQ))) acc
    roundRobin seeded className actualRooms (shuffled.drop (actualRooms * minQ)) 0

/-- Phase 2: merge one room's by-class map into a flat list (entries in
insertion order, push(...classStudents)). -/
def mergeRoom (m : StudentMap) : List Student :=
  m.foldl (fun l e => l ++ e.snd) []

/-- Phase 2: the recorded per-class sizes of one room. -/
def countsOf (m : StudentMap) : CountMap :=
  m.map (fun e => (e.fst, e.snd.length))

/-- The backward scan shared by phases 3 and 4: walk the room from its last
index down, moving a student out whenever its class keeps at least the
quota behind (count > min), until wanted students have been collected.
Returns the thinned room, the updated counts and the moved students in
source unshift order. -/
def backScan (minQ wanted : Nat) :
    List Student → CountMap → List Student → Nat → List Student × CountMap × List Student
  | room, counts, toMove, 0 => (room, counts, toMove)
  | room, counts, toMove, i + 1 =>
      if toMove.length < wanted then
        match room.get? i with
        | some s =>
            let cnt := countGet counts s.className
            if cnt > minQ then
              backScan minQ wanted (room.eraseIdx i) (countSet counts s.className (cnt - 1))
                (s :: toMove) i
            else
              backScan minQ wanted room counts toMove i
        | none => backScan minQ wanted room counts toMove i
      else (room, counts, toMove)

/-- Phase 3 for one room: if it exceeds its target size, move movable excess
students to the next room; the source splices the students out first and
only re-inserts them when a next room exists. -/
def phase3Room (minQ : Nat) (roomSizes : List Nat) (numRooms : Nat)
    (st : List (List Student) × List CountMap) (roomIndex : Nat) :
    List (List Student) × List CountMap :=
  let room := st.fst.getD roomIndex []
  let maxSize := roomSizes.getD roomIndex 0
  if room.length > maxSize then
    let excess := room.length - maxSize
    let scanned := backScan minQ excess room (st.snd.getD roomIndex []) [] room.length
    let rooms1 := st.fst.set roomIndex scanned.fst
    let counts1 := st.snd.set roomIndex scanned.snd.fst
    let toMove := scanned.snd.snd
    if toMove.length > 0 ∧ roomIndex < numRooms - 1 then
      (rooms1.set (roomIndex + 1) (toMove ++ rooms1.getD (roomIndex + 1) []),
       counts1.set (roomIndex + 1) (addCounts (counts1.getD (roomIndex + 1) []) toMove))
    else (rooms1, counts1)
  else st

/-- Phase 4 inner step: pull movable students from a later room into an
under-target room; canMove is capped by the later room's own surplus.  The
source computes needed once per outer room and never decrements it. -/
def phase4Pull (minQ : Nat) (roomSizes : List Nat) (roomIndex needed : Nat)
    (st : List (List Student) × List CountMap) (nextRoomIndex : Nat) :
    List (List Student) × List CountMap :=
  let nextRoom := st.fst.getD nextRoomIndex []
  let canMove := min needed (nextRoom.length - roomSizes.getD nextRoomIndex 0)
  let scanned := backScan minQ canMove nextRoom (st.snd.getD nextRoomIndex []) [] nextRoom.length
  let toMove := scanned.snd.snd
  if toMove.length > 0 then
    ((st.fst.set nextRoomIndex scanned.fst).set roomIndex
        (st.fst.getD roomIndex [] ++ toMove),
     (st.snd.set nextRoomIndex scanned.snd.fst).set roomIndex
        (addCounts (st.snd.getD roomIndex []) toMove))
  else st

/-- Phase 4 for one room: when under target, scan all later rooms for
movable students. -/
def phase4Room (minQ : Nat) (roomSizes : List Nat) (numRooms : Nat)
    (st : List (List Student) × List CountMap) (roomIndex : Nat) :
    List (List Student) × List CountMap :=
  let currentSize := (st.fst.getD roomIndex []).length
  let targetSize := roomSizes.getD roomIndex 0
  if currentSize < targetSize then
    let needed := targetSize - currentSize
    ((List.range numRooms).drop (roomIndex + 1)).foldl
      (phase4Pull minQ roomSizes roomIndex needed) st
  else st

/-- shuffled.slice(index, index + size) chunks of the quota-free path. -/
def chunksBySizes (l : List Student) : Nat → List Nat → List (List Student)
  | _, [] => []
  | idx, size :: rest => ((l.drop idx).take size) :: chunksBySizes l (idx + size) rest

/-- The per-grade quota of route.ts (lines 224-226): 4 for 八年级, 5 for
九年级, 0 otherwise.  No caller-supplied configuration enters here. -/
def minPerClassFor (grade : String) : Nat :=
  if grade = "八年级" then 4 else if grade = "九年级" then 5 else 0

/-- distributeStudentsWithMinPerClass of route.ts (first variant,
lines 218-437): quota-free grades are shuffled and cut into room sizes;
otherwise phase 1 seeds quota blocks per class, phase 2 merges and shuffles
each room, phase 3 pushes excess forward, phase 4 pulls shortfalls from
later rooms. -/
def distributeStudentsWithMinPerClass (students : List Student) (grade : String)
    (studentsPerRoom : Nat) (strategy : String) (rng : PartRng) :
    List (List Student) :=
  let minQ := minPerClassFor grade
  let byClass := groupByClass students
  let roomSizes := calculateRoomDistribution students.length studentsPerRoom strategy
  let numRooms := roomSizes.length
  if minQ = 0 then
    chunksBySizes (rng.shuffle0 students) 0 roomSizes
  else
    let seeded := byClass.enum.foldl
      (fun acc e => seedClass numRooms minQ acc e.snd.fst (rng.classShuffle e.fst e.snd.snd))
      (List.replicate numRooms [])
    let rooms0 := seeded.enum.map (fun e => rng.roomShuffle e.fst (mergeRoom e.snd))
    let counts0 := seeded.map countsOf
    let after3 := (List.range numRooms).foldl (phase3Room minQ roomSizes numRooms)
      (rooms0, counts0)
    let after4 := (List.range numRooms).foldl (phase4Room minQ roomSizes numRooms) after3
    after4.fst

/-- One seating arrangement pushed by the POST handler. -/
structure Arrangement where
  roomNumber : Nat
  students : List SeatAssignment
  grade : String
deriving DecidableEq, Repr

/-- The per-partition body of the POST handler: allocate the grade's
students to rooms, then assign seats per room with room numbers restarting
at 1; each room's grid is sized by its own member count. -/
def gradeSeating (gradeStudents : List Student) (grade : String)
    (gradePrefixes : List (String × String)) (studentsPerRoom : Nat)
    (strategy : String) (rng : PartRng) : List Arrangement :=
  let roomsList := distributeStudentsWithMinPerClass gradeStudents grade
    studentsPerRoom strategy rng
  (List.range roomsList.length).map (fun roomIndex =>
    let roomStudents := roomsList.getD roomIndex []
    { roomNumber := roomIndex + 1
      students := assignSeatsSmartly roomStudents gradePrefixes (roomIndex + 1)
        roomStudents.length (rng.roomPicks roomIndex)
      grade := grade })

/-- The parsed request body of the POST handler (students is already a
typed array here; gradePrefixes and the other fields carry the caller's
values or the documented defaults). -/
structure GenerateInput where
  students : List Student
  gradePrefixes : List (String × String)
  studentsPerRoom : Int
  strategy : String
deriving Repr

/-- The default gradePrefixes object of the POST handler. -/
def defaultGradePrefixes : List (String × String) :=
  [("七年级", "07011"), ("八年级", "08011"), ("九年级", "09011")]

/-- Group students by grade with the falsy-default: String(student.grade ||
"未知年级"). -/
def groupByGrade (students : List Student) : List (String × List Student) :=
  students.foldl
    (fun m s =>
      let g := if s.grade = "" then "未知年级" else s.grade
      if m.any (fun e => e.fst = g) then
        m.map (fun e => if e.fst = g then (e.fst, e.snd ++ [s]) else e)
      else m ++ [(g, [s])])
    []

/-- gradeOrder.indexOf(grade) of the final sort: 0, 1, 2 for the three known
grades and -1 for every other partition key. -/
def gradeIdx (g : String) : Int :=
  if g = "七年级" then 0 else if g = "八年级" then 1
  else if g = "九年级" then 2 else -1

/-- The preorder realised by the sort comparator of the POST handler
(aIndex - bIndex when the indices differ, else roomNumber difference):
a &le; b iff the comparator is nonpositive on (a, b). -/
def arrLE (a b : Arrangement) : Prop :=
  gradeIdx a.grade < gradeIdx b.grade ∨
    (gradeIdx a.grade = gradeIdx b.grade ∧ a.roomNumber ≤ b.roomNumber)

instance : DecidableRel arrLE := fun a b => by
  unfold arrLE
  infer_instance

instance : IsTotal Arrangement arrLE :=
  ⟨fun a b => by unfold arrLE; omega⟩

instance : IsTrans Arrangement arrLE :=
  ⟨fun a b c hab hbc => by unfold arrLE at hab hbc ⊢; omega⟩

/-- The response payload of the POST handler on success. -/
structure PostOutput where
  seatingArrangements : List Arrangement
  totalStudents : Nat
  totalRooms : Nat
deriving Repr

/-- The POST handler of route.ts: validation (non-empty roster, room
capacity within 1..72), per-grade allocation and seat assignment with room
numbers restarting at 1 in each partition, then the final sort.  JS
Array.prototype.sort with a consistent comparator is a stable sort; it is
modelled by insertion sort on the comparator preorder, which is stable and
therefore produces the same list.  The rng oracle supplies one PartRng per
partition (by encounter index). -/
def POST (input : GenerateInput) (rng : Nat → PartRng) : Except String PostOutput :=
  if input.students.length = 0 then
    .error "学生数据无效"
  else if input.studentsPerRoom < 1 ∨ 72 < input.studentsPerRoom then
    .error "每教室人数必须在1-72之间"
  else
    let grouped := groupByGrade input.students
    let allArrangements := grouped.enum.foldl
      (fun acc e =>
        acc ++ gradeSeating e.snd.snd e.snd.fst input.gradePrefixes
          input.studentsPerRoom.toNat input.strategy (rng e.fst))
      []
    .ok
      { seatingArrangements := List.insertionSort arrLE allArrangements
        totalStudents := input.students.length
        totalRooms := allArrangements.length }

/-- The arrangements the caller receives: those of the ok payload, none on
an error response. -/
def postArrangements (input : GenerateInput) (rng : Nat → PartRng) :
    List Arrangement :=
  match POST input rng with
  | .ok o => o.seatingArrangements
  | .error _ => []

/-- The number of orthogonally adjacent pairs of occupied cells sharing a
class label in a grid: horizontal pairs (r,c)-(r,c+1) and vertical pairs
(r,c)-(r+1,c).  This is the metric of the adjacency property. -/
def adjacentSameClassPairs (g : Grid) : Nat :=
  let sameAt : Nat → Nat → Nat → Nat → Nat := fun r c r' c' =>
    match gridGet g r c, gridGet g r' c' with
    | some a, some b => if a.className = b.className then 1 else 0
    | _, _ => 0
  ((List.range g.length).map (fun r =>
      ((List.range (gridCols g)).map (fun c =>
        sameAt r c r (c + 1) + sameAt r c (r + 1) c)).sum)).sum

/-- The final grid of one room (the layout whose column-major reading is the
room's seat list). -/
def finalGrid (students : List Student) (gradePrefixes : List (String × String))
    (roomNumber maxSeats : Nat) (picks : Nat → Nat) : Grid :=
  (assignFinal students gradePrefixes roomNumber maxSeats picks).grid

/-- Concrete roster refuting conservation: 13 members of a single class of
grade 八年级. -/
def c1students : List Student :=
  (List.range 13).map (fun i => ⟨Nat.repr i, "A", "八年级"⟩)

/-- Concrete roster refuting the quota invariant: one class of 7 and one of
8 in grade 八年级. -/
def c2students : List Student :=
  (List.range 7).map (fun i => ⟨"a" ++ Nat.repr i, "A", "八年级"⟩) ++
  (List.range 8).map (fun i => ⟨"b" ++ Nat.repr i, "B", "八年级"⟩)

/-- A 7-member room with pairwise distinct classes (seat numbering
counterexample). -/
def c3students : List Student :=
  (List.range 7).map (fun i => ⟨Nat.repr i, "k" ++ Nat.repr i, "七年级"⟩)

/-- A 36-member room with pairwise distinct classes (seat numbering witness). -/
def c3students36 : List Student :=
  (List.range 36).map (fun i => ⟨Nat.repr i, "k" ++ Nat.repr i, "七年级"⟩)

/-- Three classes of four members each in a 12-seat room, pool ordered by
class: the greedy assigner is forced into same-class adjacencies although no
class exceeds gridWidth*gridRows/numGroups = 4. -/
def c9students : List Student :=
  (List.range 4).map (fun i => ⟨"a" ++ Nat.repr i, "A", "七年级"⟩) ++
  (List.range 4).map (fun i => ⟨"b" ++ Nat.repr i, "B", "七年级"⟩) ++
  (List.range 4).map (fun i => ⟨"c" ++ Nat.repr i, "C", "七年级"⟩)

/-- Two classes of two members each: a room the assigner lays out with no
fallback and no adjacent same-class pair (adjacency witness). -/
def c9good : List Student :=
  [⟨"a1", "A", "七年级"⟩, ⟨"a2", "A", "七年级"⟩,
   ⟨"b1", "B", "七年级"⟩, ⟨"b2", "B", "七年级"⟩]

/-- Orchestrator input with two partitions unknown to the grade ordering,
two single-member rooms each (ordering counterexample). -/
def c7input : GenerateInput :=
  { students := [⟨"s1", "x", "甲"⟩, ⟨"s2", "x", "甲"⟩, ⟨"s3", "x", "乙"⟩, ⟨"s4", "x", "乙"⟩]
    gradePrefixes := defaultGradePrefixes
    studentsPerRoom := 1
    strategy := "last" }

/-- A small valid orchestrator input (witness input for several claims). -/
def smallInput : GenerateInput :=
  { students := [⟨"s1", "A", "七年级"⟩, ⟨"s2", "B", "七年级"⟩]
    gradePrefixes := defaultGradePrefixes
    studentsPerRoom := 36
    strategy := "last" }

/-- The empty-roster request (validation witness input). -/
def emptyInput : GenerateInput :=
  { students := []
    gradePrefixes := defaultGradePrefixes
    studentsPerRoom := 36
    strategy := "last" }

/-- One member of the identity-collision roster: class c followed by an
index, grade 八年级. -/
def cStu (i : Nat) : Student := ⟨"", "c" ++ Nat.repr i, "八年级"⟩

/-- One member of the identity-collision roster: class h followed by an
index, grade 八年级. -/
def hStu (i : Nat) : Student := ⟨"", "h" ++ Nat.repr i, "八年级"⟩

/-- The identity-collision roster as uniform class blocks: 25 classes of 40
(each spanning rooms 1..10) and one class of 404 (spanning rooms 1..101),
all of grade 八年级. -/
def c4blocks : List (Student × Nat) :=
  (List.range 25).map (fun i => (cStu i, 40)) ++ [(hStu 0, 404)]

/-- The identity-collision roster: 1404 members. -/
def c4students : List Student := c4blocks.flatMap (fun p => List.replicate p.snd p.fst)

/-- The by-class map the grouping loop produces on the collision roster. -/
def c4ByClass : StudentMap :=
  c4blocks.map (fun p => (p.fst.className, List.replicate p.snd p.fst))

/-- The member list each of rooms 1..10 receives on the collision roster:
4 members of each of the 26 classes. -/
def roomA : List Student :=
  (List.range 25).flatMap (fun i => List.replicate 4 (cStu i)) ++
  List.replicate 4 (hStu 0)

/-- The member list each of rooms 11..101 receives: 4 members of the one
large class. -/
def roomB : List Student := List.replicate 4 (hStu 0)

/-- The allocator output on the collision roster: rooms 1..10 hold 104
members each, rooms 11..101 hold 4, rooms 102..108 are empty. -/
def c4roomsLit : List (List Student) :=
  List.replicate 10 roomA ++ List.replicate 91 roomB ++ List.replicate 7 []

/-- Per-class counts of a 104-member room of the collision roster. -/
def cntA : CountMap :=
  (List.range 25).map (fun i => ("c" ++ Nat.repr i, 4)) ++ [("h0", 4)]

/-- Per-class counts of a 4-member room of the collision roster. -/
def cntB : CountMap := [("h0", 4)]

/-- The allocator's count maps on the collision roster. -/
def c4countsLit : List CountMap :=
  List.replicate 10 cntA ++ List.replicate 91 cntB ++ List.replicate 7 []

/-- The room sizes for 1404 members, capacity 13, strategy last. -/
def c4sizes : List Nat := List.replicate 108 13

/-! ## Basic grid lemmas -/

/-- The grid keeps its construction shape: rows many rows of width 6. -/
def GridShape (g : Grid) (rows : Nat) : Prop :=
  g.length = rows ∧ ∀ r, r < rows → (g.getD r []).length = 6

lemma mkGrid_shape (rows : Nat) : GridShape (mkGrid rows) rows := by
  refine ⟨List.length_replicate rows _, fun r hr => ?_⟩
  rw [mkGrid, List.getD_eq_getElem?_getD, List.getElem?_replicate, if_pos hr]
  simp

lemma gridSet_shape {g : Grid} {rows : Nat} (h : GridShape g rows) (r c : Nat)
    (v : Option SeatAssignment) : GridShape (gridSet g r c v) rows := by
  obtain ⟨hlen, hrow⟩ := h
  refine ⟨by rw [gridSet, List.length_set]; exact hlen, fun r' hr' => ?_⟩
  rw [gridSet, List.getD_eq_getElem?_getD]
  by_cases hrr : r = r'
  · subst hrr
    by_cases hrb : r < g.length
    · rw [List.getElem?_set_self hrb]
      simpa [List.length_set] using hrow r hr'
    · rw [List.set_eq_of_length_le (Nat.le_of_not_lt hrb)]
      rw [← List.getD_eq_getElem?_getD]
      exact hrow _ hr'
  · rw [List.getElem?_set_ne hrr, ← List.getD_eq_getElem?_getD]
    exact hrow _ hr'

lemma gridGet_set_ne {g : Grid} {r c r' c' : Nat}
    (h : (r, c) ≠ (r', c')) (v : Option SeatAssignment) :
    gridGet (gridSet g r c v) r' c' = gridGet g r' c' := by
  unfold gridGet gridSet
  by_cases hrr : r = r'
  · subst hrr
    have hcc : c ≠ c' := fun hc => h (by rw [hc])
    rw [List.getD_eq_getElem?_getD (g.set r _)]
    by_cases hrb : r < g.length
    · rw [List.getElem?_set_self hrb]
      simp only [Option.getD_some]
      rw [List.getD_eq_getElem?_getD, List.getElem?_set_ne hcc,
        ← List.getD_eq_getElem?_getD]
    · rw [List.set_eq_of_length_le (Nat.le_of_not_lt hrb), ← List.getD_eq_getElem?_getD]
  · rw [List.getD_eq_getElem?_getD (g.set r _), List.getElem?_set_ne hrr,
      ← List.getD_eq_getElem?_getD]

lemma gridGet_set_self {g : Grid} {rows r c : Nat} (hs : GridShape g rows)
    (hr : r < rows) (hc : c < 6) (v : Option SeatAssignment) :
    gridGet (gridSet g r c v) r c = v := by
  obtain ⟨hlen, hrow⟩ := hs
  unfold gridGet gridSet
  rw [List.getD_eq_getElem?_getD (g.set r _), List.getElem?_set_self (by omega)]
  simp only [Option.getD_some]
  rw [List.getD_eq_getElem?_getD, List.getElem?_set_self (by rw [hrow r hr]; exact hc)]
  simp

lemma gridGet_mkGrid (rows r c : Nat) : gridGet (mkGrid rows) r c = none := by
  unfold gridGet mkGrid
  rw [List.getD_eq_getElem?_getD (List.replicate rows (List.replicate 6 none)) r [],
    List.getElem?_replicate]
  by_cases hr : r < rows
  · rw [if_pos hr]
    simp only [Option.getD_some]
    rw [List.getD_eq_getElem?_getD, List.getElem?_replicate]
    by_cases hc : c < 6
    · simp [hc]
    · simp [hc]
  · rw [if_neg hr]
    simp

lemma gridCols_of_shape {g : Grid} {rows : Nat} (h : GridShape g rows) :
    gridCols g = 6 := by
  obtain ⟨hlen, hrow⟩ := h
  unfold gridCols
  cases hg : g.head? with
  | none => rfl
  | some row0 =>
      have h0 : 0 < rows := by
        cases g with
        | nil => simp at hg
        | cons a t => simp at hlen; omega
      have : (g.getD 0 []).length = 6 := hrow 0 h0
      have hrow0 : g.getD 0 [] = row0 := by
        cases g with
        | nil => simp at hg
        | cons a t =>
            simp only [List.head?_cons, Option.some.injEq] at hg
            simp [hg]
      rw [hrow0] at this
      simp [this]

/-! ## Lemmas about the selection rounds -/

lemma findIdx?_spec {α : Type} (p : α → Bool) :
    ∀ (l : List α) (s i : Nat), List.findIdx? p l s = some i →
      s ≤ i ∧ i - s < l.length ∧ ∃ a, l.get? (i - s) = some a ∧ p a = true := by
  intro l
  induction l with
  | nil =>
      intro s i h
      rw [List.findIdx?_nil] at h
      exact absurd h (by simp)
  | cons a t ih =>
      intro s i h
      rw [List.findIdx?_cons] at h
      by_cases hp : p a = true
      · rw [if_pos hp] at h
        obtain rfl : s = i := Option.some.inj h
        refine ⟨Nat.le_refl s, by simp, a, ?_, hp⟩
        rw [Nat.sub_self]
        rfl
      · rw [if_neg hp] at h
        obtain ⟨hle, hlt, b, hb, hpb⟩ := ih (s + 1) i h
        have his : s + 1 ≤ i := hle
        have hsub : i - s = (i - (s + 1)) + 1 := by omega
        refine ⟨by omega, ?_, b, ?_, hpb⟩
        · rw [List.length_cons, hsub]
          exact Nat.succ_lt_succ hlt
        · rw [hsub]
          exact hb

lemma pickRound1_some {pool : List Student} {adj : List String} {i : Nat}
    (h : pickRound1 pool adj = some i) :
    i < pool.length ∧ ∃ s, pool.get? i = some s ∧ adj.contains s.className = false := by
  obtain ⟨-, hlt, s, hs, hps⟩ := findIdx?_spec _ pool 0 i h
  simp only [Nat.sub_zero] at hlt hs
  refine ⟨hlt, s, hs, ?_⟩
  simpa using hps

lemma pickRound1_none {pool : List Student} {adj : List String}
    (h : pickRound1 pool adj = none) :
    ∀ s ∈ pool, adj.contains s.className = true := by
  intro s hs
  have := List.findIdx?_eq_none_iff.mp h s hs
  simpa using this

lemma pickRound2_dead {pool : List Student} {adj : List String}
    (h : pickRound1 pool adj = none) : pickRound2 pool adj = none := by
  have hall := pickRound1_none h
  unfold pickRound2
  suffices hgen : ∀ (l : List (Nat × Student)), (∀ e ∈ l, adj.contains e.snd.className = true) →
      (l.foldl
        (fun best e =>
          if ¬ adj.contains e.snd.className ∧
              ((pool.countP (fun s => s.className = e.snd.className) : Int) > best.snd) then
            (some e.fst, (pool.countP (fun s => s.className = e.snd.className) : Int))
          else best)
        ((none : Option Nat), (-1 : Int))).fst = none by
    refine hgen pool.enum (fun e he => ?_)
    have : e.snd ∈ pool := by
      have := List.mem_map_of_mem Prod.snd he
      rwa [List.enum_map_snd] at this
    exact hall e.snd this
  intro l
  induction l with
  | nil => intro _; rfl
  | cons e t ih =>
      intro hl
      rw [List.foldl_cons, if_neg]
      · exact ih (fun e' he' => hl e' (List.mem_cons_of_mem e he'))
      · intro hc
        have := hl e (List.mem_cons_self e t)
        rw [this] at hc
        simp at hc

/-! ## Lemmas about one assignment step -/

lemma placeStudent_grid_frame (gp : List (String × String)) (rn : Nat)
    (st : AssignState) (row col : Nat) (fb : Bool) (i : Nat) {r c : Nat}
    (h : (row, col) ≠ (r, c)) :
    gridGet (placeStudent gp rn st row col fb i).grid r c = gridGet st.grid r c := by
  unfold placeStudent
  cases st.pool.get? i with
  | none => rfl
  | some s => exact gridGet_set_ne h _

lemma placeStudent_shape {gp : List (String × String)} {rn : Nat}
    {st : AssignState} {rows : Nat} (hs : GridShape st.grid rows)
    (row col : Nat) (fb : Bool) (i : Nat) :
    GridShape (placeStudent gp rn st row col fb i).grid rows := by
  unfold placeStudent
  cases st.pool.get? i with
  | none => exact hs
  | some s => exact gridSet_shape hs row col _

lemma placeStudent_pool (gp : List (String × String)) (rn : Nat)
    (st : AssignState) (row col : Nat) (fb : Bool) (i : Nat) :
    (placeStudent gp rn st row col fb i).pool ⊆ st.pool := by
  unfold placeStudent
  cases st.pool.get? i with
  | none => exact fun x hx => hx
  | some s => exact List.eraseIdx_subset st.pool i

lemma placeStudent_fallback_of (gp : List (String × String)) (rn : Nat)
    (st : AssignState) (row col : Nat) (fb : Bool) (i : Nat)
    (h : (placeStudent gp rn st row col fb i).fallback = false) :
    st.fallback = false := by
  unfold placeStudent at h
  cases hget : st.pool.get? i with
  | none => rw [hget] at h; exact h
  | some s =>
      rw [hget] at h
      simp only at h
      exact (Bool.or_eq_false_iff.mp h).1

lemma assignStep_cases (gp : List (String × String)) (rn : Nat) (picks : Nat → Nat)
    (st : AssignState) (cell : Nat × Nat) :
    (∃ i, assignStep gp rn picks st cell = placeStudent gp rn st cell.fst cell.snd false i ∧
      pickRound1 st.pool (getAdjacentClasses st.grid cell.fst cell.snd) = some i) ∨
    (assignStep gp rn picks st cell =
        placeStudent gp rn st cell.fst cell.snd true
          (picks (cell.snd * st.grid.length + cell.fst) % st.pool.length) ∧
      pickRound1 st.pool (getAdjacentClasses st.grid cell.fst cell.snd) = none ∧
      st.pool ≠ []) ∨
    (assignStep gp rn picks st cell = st ∧ st.pool = []) := by
  simp only [assignStep]
  cases h1 : pickRound1 st.pool (getAdjacentClasses st.grid cell.fst cell.snd) with
  | some i => exact Or.inl ⟨i, rfl, rfl⟩
  | none =>
      by_cases hp : st.pool.length > 0
      · rw [if_pos hp, pickRound2_dead h1]
        exact Or.inr (Or.inl ⟨rfl, rfl, fun he => by simp [he] at hp⟩)
      · rw [if_neg hp]
        exact Or.inr (Or.inr ⟨rfl, List.length_eq_zero.mp (by omega)⟩)

lemma assignStep_shape {gp : List (String × String)} {rn : Nat} {picks : Nat → Nat}
    {st : AssignState} {rows : Nat} (hs : GridShape st.grid rows) (cell : Nat × Nat) :
    GridShape (assignStep gp rn picks st cell).grid rows := by
  rcases assignStep_cases gp rn picks st cell with ⟨i, he, -⟩ | ⟨he, -, -⟩ | ⟨he, -⟩ <;>
    rw [he]
  · exact placeStudent_shape hs _ _ _ _
  · exact placeStudent_shape hs _ _ _ _
  · exact hs

lemma assignStep_frame {gp : List (String × String)} {rn : Nat} {picks : Nat → Nat}
    {st : AssignState} {cell : Nat × Nat} {r c : Nat} (h : cell ≠ (r, c)) :
    gridGet (assignStep gp rn picks st cell).grid r c = gridGet st.grid r c := by
  have h' : (cell.fst, cell.snd) ≠ (r, c) := by
    intro he
    exact h (by rw [← he])
  rcases assignStep_cases gp rn picks st cell with ⟨i, he, -⟩ | ⟨he, -, -⟩ | ⟨he, -⟩
  · rw [he]
    exact placeStudent_grid_frame gp rn st cell.fst cell.snd false i h'
  · rw [he]
    exact placeStudent_grid_frame gp rn st cell.fst cell.snd true _ h'
  · rw [he]

lemma assignStep_pool (gp : List (String × String)) (rn : Nat) (picks : Nat → Nat)
    (st : AssignState) (cell : Nat × Nat) :
    (assignStep gp rn picks st cell).pool ⊆ st.pool := by
  rcases assignStep_cases gp rn picks st cell with ⟨i, he, -⟩ | ⟨he, -, -⟩ | ⟨he, -⟩ <;>
    rw [he]
  · exact placeStudent_pool gp rn st cell.fst cell.snd false i
  · exact placeStudent_pool gp rn st cell.fst cell.snd true _
  · exact fun x hx => hx

lemma assignStep_fallback_of {gp : List (String × String)} {rn : Nat} {picks : Nat → Nat}
    {st : AssignState} {cell : Nat × Nat}
    (h : (assignStep gp rn picks st cell).fallback = false) : st.fallback = false := by
  rcases assignStep_cases gp rn picks st cell with ⟨i, he, -⟩ | ⟨he, -, -⟩ | ⟨he, -⟩ <;>
    rw [he] at h
  · exact placeStudent_fallback_of gp rn st cell.fst cell.snd false i h
  · exact placeStudent_fallback_of gp rn st cell.fst cell.snd true _ h
  · exact h

lemma placeStudent_eq_of_get {st : AssignState} {i : Nat} {s : Student}
    (hget : st.pool.get? i = some s) (gp : List (String × String)) (rn : Nat)
    (row col : Nat) (fb : Bool) :
    placeStudent gp rn st row col fb i =
      { grid := gridSet st.grid row col
          (some (mkSeat gp rn s row col st.grid.length))
        pool := st.pool.eraseIdx i
        fallback := st.fallback || fb } := by
  unfold placeStudent
  rw [hget]

lemma gridGet_some_bounds {g : Grid} {rows r c : Nat} {s : SeatAssignment}
    (hs : GridShape g rows) (h : gridGet g r c = some s) : r < rows ∧ c < 6 := by
  obtain ⟨hlen, hrow⟩ := hs
  unfold gridGet at h
  by_cases hr : r < rows
  · refine ⟨hr, ?_⟩
    by_cases hc : c < (g.getD r []).length
    · rw [hrow r hr] at hc
      exact hc
    · rw [List.getD_eq_getElem?_getD (g.getD r []) c none,
        List.getElem?_eq_none (Nat.le_of_not_lt hc)] at h
      simp at h
  · rw [List.getD_eq_getElem?_getD g r [], List.getElem?_eq_none (by omega)] at h
    simp at h

lemma assignStep_pool_length {gp : List (String × String)} {rn : Nat}
    {picks : Nat → Nat} {st : AssignState} (cell : Nat × Nat)
    (hne : st.pool ≠ []) :
    (assignStep gp rn picks st cell).pool.length = st.pool.length - 1 := by
  have hpos : 0 < st.pool.length := List.length_pos.mpr hne
  rcases assignStep_cases gp rn picks st cell with ⟨i, he, h1⟩ | ⟨he, h1, -⟩ | ⟨-, he⟩
  · obtain ⟨hi, s, hget, -⟩ := pickRound1_some h1
    rw [he, placeStudent_eq_of_get hget]
    simp [List.length_eraseIdx, hi]
  · have hi : picks (cell.snd * st.grid.length + cell.fst) % st.pool.length <
        st.pool.length := Nat.mod_lt _ hpos
    rw [he, placeStudent_eq_of_get (List.get?_eq_get hi)]
    simp [List.length_eraseIdx, hi]
  · exact absurd he hne

lemma assignStep_occupies {gp : List (String × String)} {rn : Nat}
    {picks : Nat → Nat} {st : AssignState} {rows : Nat} {cell : Nat × Nat}
    (hs : GridShape st.grid rows) (hne : st.pool ≠ [])
    (hr : cell.fst < rows) (hc : cell.snd < 6) :
    gridGet (assignStep gp rn picks st cell).grid cell.fst cell.snd ≠ none := by
  have hpos : 0 < st.pool.length := List.length_pos.mpr hne
  rcases assignStep_cases gp rn picks st cell with ⟨i, he, h1⟩ | ⟨he, h1, -⟩ | ⟨-, he⟩
  · obtain ⟨hi, s, hget, -⟩ := pickRound1_some h1
    rw [he, placeStudent_eq_of_get hget]
    simp only
    rw [gridGet_set_self hs hr hc]
    simp
  · have hi : picks (cell.snd * st.grid.length + cell.fst) % st.pool.length <
        st.pool.length := Nat.mod_lt _ hpos
    rw [he, placeStudent_eq_of_get (List.get?_eq_get hi)]
    simp only
    rw [gridGet_set_self hs hr hc]
    simp
  · exact absurd he hne

/-- The cells of one room keep the invariant: well-shaped grid, pool drawn
from the room's members, every occupied cell holding the record built for
its own coordinates from some room member. -/
def AssignInv (students : List Student) (gp : List (String × String))
    (rn rows : Nat) (st : AssignState) : Prop :=
  GridShape st.grid rows ∧ st.pool ⊆ students ∧
    ∀ r c s, gridGet st.grid r c = some s →
      ∃ st' ∈ students, s = mkSeat gp rn st' r c rows

lemma assignStep_inv {students : List Student} {gp : List (String × String)}
    {rn rows : Nat} {picks : Nat → Nat} {st : AssignState} {cell : Nat × Nat}
    (hinv : AssignInv students gp rn rows st)
    (hr : cell.fst < rows) (hc : cell.snd < 6) :
    AssignInv students gp rn rows (assignStep gp rn picks st cell) := by
  obtain ⟨hs, hpool, hval⟩ := hinv
  have hplace : ∀ (fb : Bool) (i : Nat) (s : Student), st.pool.get? i = some s →
      AssignInv students gp rn rows (placeStudent gp rn st cell.fst cell.snd fb i) := by
    intro fb i s hget
    rw [placeStudent_eq_of_get hget]
    refine ⟨gridSet_shape hs _ _ _, fun x hx =>
      hpool (List.eraseIdx_subset st.pool i hx), fun r c v hv => ?_⟩
    by_cases hrc : (cell.fst, cell.snd) = (r, c)
    · obtain ⟨rfl, rfl⟩ := Prod.mk.inj hrc
      rw [gridGet_set_self hs hr hc] at hv
      refine ⟨s, hpool (List.get?_mem hget), ?_⟩
      have hrows : st.grid.length = rows := hs.1
      obtain rfl : mkSeat gp rn s cell.fst cell.snd st.grid.length = v :=
        Option.some.inj hv
      rw [hrows]
    · rw [gridGet_set_ne hrc] at hv
      exact hval r c v hv
  rcases assignStep_cases gp rn picks st cell with ⟨i, he, h1⟩ | ⟨he, h1, hne⟩ | ⟨he, -⟩
  · obtain ⟨-, s, hget, -⟩ := pickRound1_some h1
    rw [he]
    exact hplace false i s hget
  · have hpos : 0 < st.pool.length := List.length_pos.mpr hne
    have hi : picks (cell.snd * st.grid.length + cell.fst) % st.pool.length <
        st.pool.length := Nat.mod_lt _ hpos
    rw [he]
    exact hplace true _ _ (List.get?_eq_get hi)
  · rw [he]
    exact ⟨hs, hpool, hval⟩

lemma assignFold_inv {students : List Student} {gp : List (String × String)}
    {rn rows : Nat} {picks : Nat → Nat} :
    ∀ (cells : List (Nat × Nat)) (st : AssignState),
      (∀ cell ∈ cells, cell.fst < rows ∧ cell.snd < 6) →
      AssignInv students gp rn rows st →
      AssignInv students gp rn rows
        (cells.foldl (assignStep gp rn picks) st) := by
  intro cells
  induction cells with
  | nil => intro st _ h; exact h
  | cons cell t ih =>
      intro st hb h
      rw [List.foldl_cons]
      exact ih _ (fun c hc => hb c (List.mem_cons_of_mem cell hc))
        (assignStep_inv h (hb cell (List.mem_cons_self cell t)).1
          (hb cell (List.mem_cons_self cell t)).2)

lemma assignFold_frame {gp : List (String × String)} {rn : Nat} {picks : Nat → Nat} :
    ∀ (cells : List (Nat × Nat)) (st : AssignState) (r c : Nat), (r, c) ∉ cells →
      gridGet ((cells.foldl (assignStep gp rn picks) st)).grid r c =
        gridGet st.grid r c := by
  intro cells
  induction cells with
  | nil => intro st r c _; rfl
  | cons cell t ih =>
      intro st r c hmem
      rw [List.foldl_cons, ih _ r c (fun hm => hmem (List.mem_cons_of_mem cell hm))]
      exact assignStep_frame (fun he => hmem (he ▸ List.mem_cons_self cell t))

lemma assignFold_fallback_of {gp : List (String × String)} {rn : Nat}
    {picks : Nat → Nat} :
    ∀ (cells : List (Nat × Nat)) (st : AssignState),
      (cells.foldl (assignStep gp rn picks) st).fallback = false →
      st.fallback = false := by
  intro cells
  induction cells with
  | nil => intro st h; exact h
  | cons cell t ih =>
      intro st h
      rw [List.foldl_cons] at h
      exact assignStep_fallback_of (ih _ h)

lemma assignFold_occupied {gp : List (String × String)} {rn : Nat}
    {picks : Nat → Nat} {rows : Nat} :
    ∀ (cells : List (Nat × Nat)) (st : AssignState), cells.Nodup →
      (∀ cell ∈ cells, cell.fst < rows ∧ cell.snd < 6) →
      GridShape st.grid rows → cells.length ≤ st.pool.length →
      ∀ cell ∈ cells,
        gridGet ((cells.foldl (assignStep gp rn picks) st)).grid
          cell.fst cell.snd ≠ none := by
  intro cells
  induction cells with
  | nil => intro st _ _ _ _ cell hc; exact absurd hc (List.not_mem_nil cell)
  | cons hd t ih =>
      intro st hnd hb hs hlen cell hc
      have hne : st.pool ≠ [] := by
        intro he
        rw [he] at hlen
        simp at hlen
      rw [List.foldl_cons]
      rcases List.mem_cons.mp hc with rfl | hct
      · have hnotin : (cell.fst, cell.snd) ∉ t := by
          have := (List.nodup_cons.mp hnd).1
          simpa using this
        rw [assignFold_frame t _ cell.fst cell.snd hnotin]
        exact assignStep_occupies hs hne (hb cell (List.mem_cons_self cell t)).1
          (hb cell (List.mem_cons_self cell t)).2
      · refine ih _ (List.nodup_cons.mp hnd).2
          (fun c h => hb c (List.mem_cons_of_mem hd h))
          (assignStep_shape hs hd) ?_ cell hct
        rw [assignStep_pool_length hd hne]
        have := hlen
        simp only [List.length_cons] at this
        omega

/-! ## Membership in the adjacent-class set -/

lemma adjProbe_mono {g : Grid} {row col : Nat} {acc : List String} {x : String}
    (h : x ∈ acc) (d : Int × Int) : x ∈ adjProbe g row col acc d := by
  simp only [adjProbe]
  split
  · split
    · split
      · exact List.mem_append_left _ h
      · exact h
    · exact h
  · exact h

lemma adjFold_mono {g : Grid} {row col : Nat} :
    ∀ (ds : List (Int × Int)) (acc : List String) (x : String), x ∈ acc →
      x ∈ ds.foldl (adjProbe g row col) acc := by
  intro ds
  induction ds with
  | nil => intro acc x h; exact h
  | cons d t ih =>
      intro acc x h
      rw [List.foldl_cons]
      exact ih _ x (adjProbe_mono h d)

lemma adjProbe_adds {g : Grid} {row col : Nat} {acc : List String}
    {d : Int × Int} {nr nc : Nat} {s : SeatAssignment}
    (hrow : (row : Int) + d.fst = (nr : Int)) (hcol : (col : Int) + d.snd = (nc : Int))
    (hnr : nr < g.length) (hnc : nc < gridCols g)
    (hcell : gridGet g nr nc = some s) (hcn : s.className ≠ "") :
    s.className ∈ adjProbe g row col acc d := by
  simp only [adjProbe]
  rw [if_pos]
  · rw [hrow, hcol]
    simp only [Int.toNat_natCast]
    by_cases hin : acc.contains s.className
    · have hmem : s.className ∈ acc := by simpa using hin
      simp [hcell, hin, hmem]
    · have hnot : s.className ∉ acc := by simpa using hin
      simp [hcell, hcn, hnot]
  · rw [hrow, hcol]
    refine ⟨Int.natCast_nonneg nr, ?_, Int.natCast_nonneg nc, ?_⟩
    · exact_mod_cast hnr
    · exact_mod_cast hnc

lemma adjFold_adds {g : Grid} {row col : Nat} :
    ∀ (ds : List (Int × Int)) (acc : List String) (d : Int × Int), d ∈ ds →
      ∀ {nr nc : Nat} {s : SeatAssignment},
      (row : Int) + d.fst = (nr : Int) → (col : Int) + d.snd = (nc : Int) →
      nr < g.length → nc < gridCols g → gridGet g nr nc = some s →
      s.className ≠ "" → s.className ∈ ds.foldl (adjProbe g row col) acc := by
  intro ds
  induction ds with
  | nil => intro acc d hd; exact absurd hd (List.not_mem_nil d)
  | cons d0 t ih =>
      intro acc d hd nr nc s h1 h2 h3 h4 h5 h6
      rw [List.foldl_cons]
      rcases List.mem_cons.mp hd with rfl | hdt
      · exact adjFold_mono t _ _ (adjProbe_adds h1 h2 h3 h4 h5 h6)
      · exact ih _ d hdt h1 h2 h3 h4 h5 h6

lemma adj_mem_up {g : Grid} {row col : Nat} {s : SeatAssignment}
    (hpos : 0 < row) (hr : row - 1 < g.length) (hcb : col < gridCols g)
    (hcell : gridGet g (row - 1) col = some s) (hcn : s.className ≠ "") :
    s.className ∈ getAdjacentClasses g row col := by
  unfold getAdjacentClasses
  refine adjFold_adds _ [] (-1, 0) (by simp) ?_ ?_ hr hcb hcell hcn
  · show (row : Int) + (-1) = ((row - 1 : Nat) : Int)
    omega
  · show (col : Int) + 0 = (col : Int)
    omega

lemma adj_mem_down {g : Grid} {row col : Nat} {s : SeatAssignment}
    (hr : row + 1 < g.length) (hcb : col < gridCols g)
    (hcell : gridGet g (row + 1) col = some s) (hcn : s.className ≠ "") :
    s.className ∈ getAdjacentClasses g row col := by
  unfold getAdjacentClasses
  refine adjFold_adds _ [] (1, 0) (by simp) ?_ ?_ hr hcb hcell hcn
  · show (row : Int) + 1 = ((row + 1 : Nat) : Int)
    omega
  · show (col : Int) + 0 = (col : Int)
    omega

lemma adj_mem_left {g : Grid} {row col : Nat} {s : SeatAssignment}
    (hpos : 0 < col) (hr : row < g.length) (hcb : col - 1 < gridCols g)
    (hcell : gridGet g row (col - 1) = some s) (hcn : s.className ≠ "") :
    s.className ∈ getAdjacentClasses g row col := by
  unfold getAdjacentClasses
  refine adjFold_adds _ [] (0, -1) (by simp) ?_ ?_ hr hcb hcell hcn
  · show (row : Int) + 0 = (row : Int)
    omega
  · show (col : Int) + (-1) = ((col - 1 : Nat) : Int)
    omega

lemma adj_mem_right {g : Grid} {row col : Nat} {s : SeatAssignment}
    (hr : row < g.length) (hcb : col + 1 < gridCols g)
    (hcell : gridGet g row (col + 1) = some s) (hcn : s.className ≠ "") :
    s.className ∈ getAdjacentClasses g row col := by
  unfold getAdjacentClasses
  refine adjFold_adds _ [] (0, 1) (by simp) ?_ ?_ hr hcb hcell hcn
  · show (row : Int) + 0 = (row : Int)
    omega
  · show (col : Int) + 1 = ((col + 1 : Nat) : Int)
    omega

/-! ## The no-adjacent-same-class invariant -/

/-- Every occupied cell has a non-empty class label. -/
def CellNE (g : Grid) : Prop :=
  ∀ r c s, gridGet g r c = some s → s.className ≠ ""

/-- No two horizontally or vertically adjacent occupied cells share a class. -/
def NoAdjSame (g : Grid) : Prop :=
  ∀ r c a b, gridGet g r c = some a →
    (gridGet g r (c + 1) = some b → a.className ≠ b.className) ∧
    (gridGet g (r + 1) c = some b → a.className ≠ b.className)

lemma assignStep_noadj {gp : List (String × String)} {rn : Nat} {picks : Nat → Nat}
    {st : AssignState} {rows : Nat} {cell : Nat × Nat}
    (hs : GridShape st.grid rows)
    (hcls : ∀ s ∈ st.pool, s.className ≠ "")
    (hne : CellNE st.grid) (hna : NoAdjSame st.grid)
    (hfb : (assignStep gp rn picks st cell).fallback = false)
    (hr : cell.fst < rows) (hc : cell.snd < 6) :
    NoAdjSame (assignStep gp rn picks st cell).grid ∧
      CellNE (assignStep gp rn picks st cell).grid := by
  have hrows : st.grid.length = rows := hs.1
  have hcols : gridCols st.grid = 6 := gridCols_of_shape hs
  rcases assignStep_cases gp rn picks st cell with ⟨i, he, h1⟩ | ⟨he, h1, hnemp⟩ | ⟨he, -⟩
  · obtain ⟨hi, s0, hget, hcont⟩ := pickRound1_some h1
    have hs0 : s0 ∈ st.pool := List.get?_mem hget
    have hnotin : s0.className ∉ getAdjacentClasses st.grid cell.fst cell.snd := by
      intro hm
      have : (getAdjacentClasses st.grid cell.fst cell.snd).contains s0.className = true := by
        simpa using hm
      rw [hcont] at this
      exact Bool.false_ne_true this
    rw [he, placeStudent_eq_of_get hget]
    simp only
    set v := mkSeat gp rn s0 cell.fst cell.snd st.grid.length with hv
    have hvcn : v.className = s0.className := rfl
    have hgetself :
        gridGet (gridSet st.grid cell.fst cell.snd (some v)) cell.fst cell.snd = some v :=
      gridGet_set_self hs hr hc (some v)
    have hframe : ∀ {r c : Nat}, (cell.fst, cell.snd) ≠ (r, c) →
        gridGet (gridSet st.grid cell.fst cell.snd (some v)) r c = gridGet st.grid r c :=
      fun h => gridGet_set_ne h (some v)
    have hCellNE : CellNE (gridSet st.grid cell.fst cell.snd (some v)) := by
      intro r c s hsome
      by_cases hrc : (cell.fst, cell.snd) = (r, c)
      · obtain ⟨rfl, rfl⟩ := Prod.mk.inj hrc
        rw [hgetself] at hsome
        obtain rfl := Option.some.inj hsome
        rw [hvcn]
        exact hcls s0 hs0
      · rw [hframe hrc] at hsome
        exact hne r c s hsome
    refine ⟨?_, hCellNE⟩
    intro r c a b ha
    constructor
    · intro hb
      by_cases h1' : (cell.fst, cell.snd) = (r, c)
      · obtain ⟨rfl, rfl⟩ := Prod.mk.inj h1'
        rw [hgetself] at ha
        obtain rfl := Option.some.inj ha
        have hbne : (cell.fst, cell.snd) ≠ (cell.fst, cell.snd + 1) := by
          intro hp
          exact absurd (Prod.mk.inj hp).2 (by omega)
        rw [hframe hbne] at hb
        have hbbounds := gridGet_some_bounds hs hb
        have hbmem : b.className ∈ getAdjacentClasses st.grid cell.fst cell.snd :=
          adj_mem_right (by omega) (by rw [hcols]; exact hbbounds.2) hb
            (hne _ _ b hb)
        rw [hvcn]
        intro heq
        exact hnotin (heq ▸ hbmem)
      · rw [hframe h1'] at ha
        by_cases h2' : (cell.fst, cell.snd) = (r, c + 1)
        · obtain ⟨rfl, hceq⟩ := Prod.mk.inj h2'
          rw [hceq] at hgetself hframe hb
          rw [hgetself] at hb
          obtain rfl := Option.some.inj hb
          have habounds := gridGet_some_bounds hs ha
          have hc1 : c + 1 - 1 = c := by omega
          have ha' : gridGet st.grid cell.fst (c + 1 - 1) = some a := by
            rw [hc1]
            exact ha
          have hamem : a.className ∈ getAdjacentClasses st.grid cell.fst (c + 1) :=
            adj_mem_left (by omega) (by omega)
              (by rw [hcols]; omega) ha' (hne _ _ a ha)
          rw [hvcn]
          intro heq
          rw [hceq] at hnotin
          exact hnotin (heq ▸ hamem)
        · rw [hframe h2'] at hb
          exact (hna r c a b ha).1 hb
    · intro hb
      by_cases h1' : (cell.fst, cell.snd) = (r, c)
      · obtain ⟨rfl, rfl⟩ := Prod.mk.inj h1'
        rw [hgetself] at ha
        obtain rfl := Option.some.inj ha
        have hbne : (cell.fst, cell.snd) ≠ (cell.fst + 1, cell.snd) := by
          intro hp
          exact absurd (Prod.mk.inj hp).1 (by omega)
        rw [hframe hbne] at hb
        have hbbounds := gridGet_some_bounds hs hb
        have hbmem : b.className ∈ getAdjacentClasses st.grid cell.fst cell.snd :=
          adj_mem_down (by rw [hrows]; exact hbbounds.1)
            (by rw [hcols]; exact hc) hb (hne _ _ b hb)
        rw [hvcn]
        intro heq
        exact hnotin (heq ▸ hbmem)
      · rw [hframe h1'] at ha
        by_cases h2' : (cell.fst, cell.snd) = (r + 1, c)
        · obtain ⟨hreq, rfl⟩ := Prod.mk.inj h2'
          rw [hreq] at hgetself hframe hb
          rw [hgetself] at hb
          obtain rfl := Option.some.inj hb
          have habounds := gridGet_some_bounds hs ha
          have hr1 : r + 1 - 1 = r := by omega
          have ha' : gridGet st.grid (r + 1 - 1) cell.snd = some a := by
            rw [hr1]
            exact ha
          have hamem : a.className ∈ getAdjacentClasses st.grid (r + 1) cell.snd :=
            adj_mem_up (by omega) (by rw [hrows]; omega)
              (by rw [hcols]; exact hc) ha' (hne _ _ a ha)
          rw [hvcn]
          intro heq
          rw [hreq] at hnotin
          exact hnotin (heq ▸ hamem)
        · rw [hframe h2'] at hb
          exact (hna r c a b ha).2 hb
  · have hpos : 0 < st.pool.length := List.length_pos.mpr hnemp
    have hi : picks (cell.snd * st.grid.length + cell.fst) % st.pool.length <
        st.pool.length := Nat.mod_lt _ hpos
    rw [he, placeStudent_eq_of_get (List.get?_eq_get hi)] at hfb
    simp at hfb
  · rw [he]
    exact ⟨hna, hne⟩

lemma assignFold_noadj {gp : List (String × String)} {rn : Nat} {picks : Nat → Nat}
    {rows : Nat} :
    ∀ (cells : List (Nat × Nat)) (st : AssignState),
      (∀ cell ∈ cells, cell.fst < rows ∧ cell.snd < 6) →
      GridShape st.grid rows → (∀ s ∈ st.pool, s.className ≠ "") →
      CellNE st.grid → NoAdjSame st.grid →
      (cells.foldl (assignStep gp rn picks) st).fallback = false →
      NoAdjSame (cells.foldl (assignStep gp rn picks) st).grid := by
  intro cells
  induction cells with
  | nil => intro st _ _ _ _ hna _; exact hna
  | cons cell t ih =>
      intro st hb hs hcls hne hna hfb
      rw [List.foldl_cons] at hfb ⊢
      have hstep : (assignStep gp rn picks st cell).fallback = false :=
        assignFold_fallback_of t _ hfb
      obtain ⟨hna', hne'⟩ := assignStep_noadj hs hcls hne hna hstep
        (hb cell (List.mem_cons_self cell t)).1 (hb cell (List.mem_cons_self cell t)).2
      exact ih _ (fun c h => hb c (List.mem_cons_of_mem cell h))
        (assignStep_shape hs cell)
        (fun s h => hcls s (assignStep_pool gp rn picks st cell h)) hne' hna' hfb

lemma adjacentSameClassPairs_eq_zero {g : Grid} (h : NoAdjSame g) :
    adjacentSameClassPairs g = 0 := by
  simp only [adjacentSameClassPairs]
  refine List.sum_eq_zero fun x hx => ?_
  rw [List.mem_map] at hx
  obtain ⟨r, -, rfl⟩ := hx
  refine List.sum_eq_zero fun y hy => ?_
  rw [List.mem_map] at hy
  obtain ⟨c, -, rfl⟩ := hy
  cases h1 : gridGet g r c with
  | none => simp [h1]
  | some a =>
      cases h2 : gridGet g r (c + 1) with
      | none =>
          cases h3 : gridGet g (r + 1) c with
          | none => simp [h1, h2, h3]
          | some b => simp [h1, h2, h3, (h r c a b h1).2 h3]
      | some b =>
          cases h3 : gridGet g (r + 1) c with
          | none => simp [h1, h2, h3, (h r c a b h1).1 h2]
          | some b2 => simp [h1, h2, h3, (h r c a b h1).1 h2, (h r c a b2 h1).2 h3]

/-! ## Lemmas about the cell traversal list -/

lemma mem_cellList {rows : Nat} {cell : Nat × Nat} :
    cell ∈ cellList rows ↔ cell.fst < rows ∧ cell.snd < 6 := by
  unfold cellList
  rw [List.mem_flatMap]
  constructor
  · rintro ⟨r, hr, hm⟩
    rw [List.mem_map] at hm
    obtain ⟨c, hc, rfl⟩ := hm
    exact ⟨List.mem_range.mp hr, List.mem_range.mp hc⟩
  · rintro ⟨h1, h2⟩
    refine ⟨cell.fst, List.mem_range.mpr h1, ?_⟩
    rw [List.mem_map]
    exact ⟨cell.snd, List.mem_range.mpr h2, Prod.mk.eta⟩

lemma cellList_nodup (rows : Nat) : (cellList rows).Nodup := by
  unfold cellList
  rw [List.nodup_flatMap]
  constructor
  · intro r _
    exact (List.nodup_range 6).map (fun a b h => (Prod.mk.inj h).2)
  · refine (List.pairwise_lt_range rows).imp ?_
    intro a b hab x hxa hxb
    rw [List.mem_map] at hxa hxb
    obtain ⟨c1, -, rfl⟩ := hxa
    obtain ⟨c2, -, he⟩ := hxb
    exact absurd ((Prod.mk.inj he).1) (Nat.ne_of_gt hab)

lemma cellList_length (rows : Nat) : (cellList rows).length = rows * 6 := by
  unfold cellList
  rw [List.length_flatMap]
  have h1 : List.map (List.length ∘ fun r => (List.range 6).map (fun c => (r, c)))
      (List.range rows) = (List.range rows).map (fun _ => 6) :=
    List.map_congr_left (fun r _ => by simp)
  rw [h1, List.map_const', List.length_range, List.sum_replicate]
  simp [Nat.mul_comm]

lemma assignFinal_inv (students : List Student) (gp : List (String × String))
    (rn maxSeats : Nat) (picks : Nat → Nat) :
    AssignInv students gp rn ((maxSeats + 5) / 6)
      (assignFinal students gp rn maxSeats picks) := by
  show AssignInv students gp rn ((maxSeats + 5) / 6)
    ((cellList ((maxSeats + 5) / 6)).foldl (assignStep gp rn picks)
      { grid := mkGrid ((maxSeats + 5) / 6), pool := students, fallback := false })
  refine assignFold_inv _ _ (fun cell hc => mem_cellList.mp hc)
    ⟨mkGrid_shape _, fun x hx => hx, fun r c s h => ?_⟩
  rw [gridGet_mkGrid] at h
  cases h

lemma assignFinal_occupied (students : List Student) (gp : List (String × String))
    (rn maxSeats : Nat) (picks : Nat → Nat)
    (hlen : ((maxSeats + 5) / 6) * 6 ≤ students.length) :
    ∀ r, r < (maxSeats + 5) / 6 → ∀ c, c < 6 →
      gridGet (finalGrid students gp rn maxSeats picks) r c ≠ none := by
  intro r hr c hc
  show gridGet ((cellList ((maxSeats + 5) / 6)).foldl (assignStep gp rn picks)
      { grid := mkGrid ((maxSeats + 5) / 6), pool := students,
        fallback := false }).grid r c ≠ none
  exact assignFold_occupied (cellList ((maxSeats + 5) / 6)) _
    (cellList_nodup _) (fun cell hcell => mem_cellList.mp hcell) (mkGrid_shape _)
    (by rw [cellList_length]; exact hlen) (r, c) (mem_cellList.mpr ⟨hr, hc⟩)

/-! ## Reading the grid back in column-major order -/

lemma mem_seatsOf {g : Grid} {p : SeatAssignment} (h : p ∈ seatsOf g) :
    ∃ c, c < gridCols g ∧ ∃ r, r < g.length ∧ gridGet g r c = some p := by
  unfold seatsOf at h
  rw [List.mem_flatMap] at h
  obtain ⟨c, hc, hm⟩ := h
  rw [List.mem_filterMap] at hm
  obtain ⟨r, hr, hget⟩ := hm
  exact ⟨c, List.mem_range.mp hc, r, List.mem_range.mp hr, hget⟩

lemma seatsOf_pairwise {g : Grid} {rows : Nat} (hs : GridShape g rows)
    (hv : ∀ r c s, gridGet g r c = some s → s.seatNumber = c * rows + r + 1) :
    ((seatsOf g).map (fun s => s.seatNumber)).Pairwise (· < ·) := by
  unfold seatsOf
  rw [List.map_flatMap, List.pairwise_flatMap]
  constructor
  · intro c _
    rw [List.pairwise_map, List.pairwise_filterMap]
    refine (List.pairwise_lt_range g.length).imp ?_
    intro r r' hrr s hb s' hb'
    have h1 := hv r c s (Option.mem_def.mp hb)
    have h2 := hv r' c s' (Option.mem_def.mp hb')
    omega
  · refine (List.pairwise_lt_range (gridCols g)).imp ?_
    intro c c' hcc x hx y hy
    rw [List.mem_map] at hx hy
    obtain ⟨s, hsin, rfl⟩ := hx
    obtain ⟨s', hsin', rfl⟩ := hy
    rw [List.mem_filterMap] at hsin hsin'
    obtain ⟨r, hr, hget⟩ := hsin
    obtain ⟨r', hr', hget'⟩ := hsin'
    have h1 := hv r c s hget
    have h2 := hv r' c' s' hget'
    have hrlt : r < rows := by
      rw [← hs.1]
      exact List.mem_range.mp hr
    have hstep : c * rows + r + 1 ≤ (c + 1) * rows := by
      have : (c + 1) * rows = c * rows + rows := by ring
      omega
    have hcy : (c + 1) * rows ≤ c' * rows := Nat.mul_le_mul_right rows hcc
    omega

lemma filterMap_all_values {g : Grid} {c : Nat} (val : Nat → Nat) :
    ∀ (l : List Nat),
      (∀ r ∈ l, ∃ s, gridGet g r c = some s ∧ s.seatNumber = val r) →
      ((l.filterMap (fun r => gridGet g r c)).map (fun s => s.seatNumber)) = l.map val := by
  intro l
  induction l with
  | nil => intro _; rfl
  | cons r t ih =>
      intro h
      obtain ⟨s, hget, hval⟩ := h r (List.mem_cons_self r t)
      rw [List.filterMap_cons, hget]
      simp only [List.map_cons]
      rw [hval, ih (fun r' hr' => h r' (List.mem_cons_of_mem r hr'))]

lemma range_flatMap_mul : ∀ (k rows : Nat),
    (List.range k).flatMap (fun c => (List.range rows).map (fun r => c * rows + r)) =
      List.range (k * rows) := by
  intro k
  induction k with
  | zero => intro rows; simp
  | succ k ih =>
      intro rows
      rw [List.range_succ, List.flatMap_append, ih rows]
      rw [(by ring : (k + 1) * rows = k * rows + rows), List.range_add]
      congr 1
      simp

lemma sum_base_extra : ∀ (k base extra : Nat),
    ((List.range k).map (fun i => base + if i < extra then 1 else 0)).sum =
      k * base + min k extra := by
  intro k
  induction k with
  | zero => intro base extra; simp
  | succ k ih =>
      intro base extra
      rw [List.range_succ, List.map_append, List.sum_append, ih base extra]
      simp only [List.map_cons, List.map_nil, List.sum_cons, List.sum_nil]
      rw [Nat.succ_mul]
      by_cases hk : k < extra
      · rw [if_pos hk]
        omega
      · rw [if_neg hk]
        omega

/-! ## Lemmas about the grouping loop -/

lemma mapPush_absent (m : StudentMap) (k : String) (xs : List Student)
    (h : ∀ e ∈ m, e.fst ≠ k) : mapPush m k xs = m ++ [(k, xs)] := by
  unfold mapPush
  rw [if_neg]
  intro hc
  simp only [List.any_eq_true, decide_eq_true_eq] at hc
  obtain ⟨e, he, hk⟩ := hc
  exact h e he hk

lemma map_update_skip (k : String) (xs : List Student) :
    ∀ (l : StudentMap), (∀ e ∈ l, e.fst ≠ k) →
      List.map (fun e => if e.fst = k then (e.fst, e.snd ++ xs) else e) l = l := by
  intro l
  induction l with
  | nil => intro _; rfl
  | cons a t ih =>
      intro hl
      simp only [List.map_cons]
      rw [if_neg (hl a (List.mem_cons_self a t)),
        ih (fun e he => hl e (List.mem_cons_of_mem a he))]

lemma mapPush_last (m : StudentMap) (k : String) (v xs : List Student)
    (h : ∀ e ∈ m, e.fst ≠ k) : mapPush (m ++ [(k, v)]) k xs = m ++ [(k, v ++ xs)] := by
  unfold mapPush
  rw [if_pos (by simp)]
  rw [List.map_append, map_update_skip k xs m h]
  simp

lemma group_replicate (s : Student) (m : StudentMap)
    (h : ∀ e ∈ m, e.fst ≠ s.className) :
    ∀ (n : Nat) (v : List Student),
      (List.replicate n s).foldl groupStep (m ++ [(s.className, v)]) =
        m ++ [(s.className, v ++ List.replicate n s)] := by
  intro n
  induction n with
  | zero => simp
  | succ n ih =>
      intro v
      rw [List.replicate_succ, List.foldl_cons]
      show (List.replicate n s).foldl groupStep (groupStep (m ++ [(s.className, v)]) s) = _
      rw [groupStep, mapPush_last m s.className v [s] h, ih (v ++ [s])]
      simp [List.replicate_succ']

lemma group_block (s : Student) (n : Nat) (m : StudentMap)
    (h : ∀ e ∈ m, e.fst ≠ s.className) (hn : n ≠ 0) :
    (List.replicate n s).foldl groupStep m = m ++ [(s.className, List.replicate n s)] := by
  cases n with
  | zero => exact absurd rfl hn
  | succ n =>
      rw [List.replicate_succ, List.foldl_cons]
      show (List.replicate n s).foldl groupStep (groupStep m s) = _
      rw [groupStep, mapPush_absent m s.className [s] h, group_replicate s m h n [s]]
      simp [List.replicate_succ]

lemma group_blocks : ∀ (bs : List (Student × Nat)) (m : StudentMap),
    (∀ p ∈ bs, p.snd ≠ 0) →
    (∀ p ∈ bs, ∀ e ∈ m, e.fst ≠ p.fst.className) →
    (bs.map (fun p => p.fst.className)).Pairwise (· ≠ ·) →
    (bs.flatMap (fun p => List.replicate p.snd p.fst)).foldl groupStep m =
      m ++ bs.map (fun p => (p.fst.className, List.replicate p.snd p.fst)) := by
  intro bs
  induction bs with
  | nil => simp
  | cons b bs ih =>
      intro m hpos habs hpw
      rw [List.flatMap_cons, List.foldl_append]
      rw [group_block b.fst b.snd m (habs b (List.mem_cons_self b bs))
        (hpos b (List.mem_cons_self b bs))]
      rw [ih (m ++ [(b.fst.className, List.replicate b.snd b.fst)])
        (fun p hp => hpos p (List.mem_cons_of_mem b hp))
        (fun p hp e he => by
          rcases List.mem_append.mp he with hm | hb
          · exact habs p (List.mem_cons_of_mem b hp) e hm
          · rcases List.mem_singleton.mp hb with rfl
            have := (List.pairwise_cons.mp hpw).1 p.fst.className
              (List.mem_map_of_mem (fun p => p.fst.className) hp)
            simpa using this)
        (List.pairwise_cons.mp hpw).2]
      simp

/-! ## Membership preservation through the allocator -/

/-- Every student stored in a by-class map satisfies P. -/
abbrev MapGood (P : Student → Prop) (m : StudentMap) : Prop :=
  ∀ e ∈ m, ∀ s ∈ e.snd, P s

/-- Every student of every room satisfies P. -/
abbrev RoomsGood (P : Student → Prop) (rooms : List (List Student)) : Prop :=
  ∀ room ∈ rooms, ∀ s ∈ room, P s

lemma getD_mem_or {α : Type} (l : List α) (i : Nat) (d : α) :
    l.getD i d ∈ l ∨ l.getD i d = d := by
  induction l generalizing i with
  | nil => right; cases i <;> rfl
  | cons a t ih =>
      cases i with
      | zero => left; exact List.mem_cons_self a t
      | succ n =>
          rcases ih n with h | h
          · left
            exact List.mem_cons_of_mem a h
          · right
            exact h

lemma foldl_preserve {β σ : Type} (Q : σ → Prop) (f : σ → β → σ) :
    ∀ (l : List β) (s : σ), Q s → (∀ s' b, b ∈ l → Q s' → Q (f s' b)) →
      Q (l.foldl f s) := by
  intro l
  induction l with
  | nil => intro s h _; exact h
  | cons b t ih =>
      intro s h hstep
      rw [List.foldl_cons]
      exact ih _ (hstep s b (List.mem_cons_self b t) h)
        (fun s' b' hb' => hstep s' b' (List.mem_cons_of_mem b hb'))

lemma foldl_id {β σ : Type} (f : σ → β → σ) :
    ∀ (l : List β) (s : σ), (∀ b ∈ l, f s b = s) → l.foldl f s = s := by
  intro l
  induction l with
  | nil => intro s _; rfl
  | cons b t ih =>
      intro s h
      rw [List.foldl_cons, h b (List.mem_cons_self b t)]
      exact ih s (fun b' hb' => h b' (List.mem_cons_of_mem b hb'))

lemma set_forall {α : Type} {Q : α → Prop} {l : List α} (hl : ∀ x ∈ l, Q x)
    {v : α} (hv : Q v) (i : Nat) : ∀ x ∈ l.set i v, Q x :=
  fun x hx => (List.mem_or_eq_of_mem_set hx).elim (hl x) (fun h => h ▸ hv)

lemma getD_good {P : Student → Prop} {acc : List StudentMap}
    (hacc : ∀ m ∈ acc, MapGood P m) (i : Nat) : MapGood P (acc.getD i []) := by
  rcases getD_mem_or acc i [] with h | h
  · exact hacc _ h
  · rw [h]
    exact fun e he => absurd he (List.not_mem_nil e)

lemma getD_room_good {P : Student → Prop} {rooms : List (List Student)}
    (h : RoomsGood P rooms) (i : Nat) : ∀ s ∈ rooms.getD i [], P s := by
  rcases getD_mem_or rooms i [] with hm | hm
  · exact h _ hm
  · rw [hm]
    exact fun s hs => absurd hs (List.not_mem_nil s)

lemma mapPush_good {P : Student → Prop} {m : StudentMap} {k : String}
    {xs : List Student} (hm : MapGood P m) (hxs : ∀ s ∈ xs, P s) :
    MapGood P (mapPush m k xs) := by
  unfold mapPush
  split
  · intro e he s hs
    rw [List.mem_map] at he
    obtain ⟨e0, he0, rfl⟩ := he
    by_cases hk : e0.fst = k
    · rw [if_pos hk] at hs
      rcases List.mem_append.mp hs with h | h
      · exact hm e0 he0 s h
      · exact hxs s h
    · rw [if_neg hk] at hs
      exact hm e0 he0 s hs
  · intro e he s hs
    rcases List.mem_append.mp he with h | h
    · exact hm e h s hs
    · rcases List.mem_singleton.mp h with rfl
      exact hxs s hs

lemma groupByClass_good {P : Student → Prop} {students : List Student}
    (h : ∀ s ∈ students, P s) : MapGood P (groupByClass students) := by
  unfold groupByClass
  refine foldl_preserve (MapGood P) groupStep students []
    (fun e he => absurd he (List.not_mem_nil e)) ?_
  intro m s hs hm
  exact mapPush_good hm (fun x hx => by
    rcases List.mem_singleton.mp hx with rfl
    exact h _ hs)

lemma roundRobin_good {P : Student → Prop} {className : String} {actualRooms : Nat} :
    ∀ (rest : List Student) (offset : Nat) (acc : List StudentMap),
      (∀ m ∈ acc, MapGood P m) → (∀ s ∈ rest, P s) →
      ∀ m ∈ roundRobin acc className actualRooms rest offset, MapGood P m := by
  intro rest
  induction rest with
  | nil => intro offset acc hacc _ m hm; exact hacc m hm
  | cons s rest ih =>
      intro offset acc hacc hrest m hm
      exact ih (offset + 1)
        (acc.set (offset % actualRooms)
          (mapPush (acc.getD (offset % actualRooms) []) className [s]))
        (set_forall hacc
          (mapPush_good (getD_good hacc (offset % actualRooms))
            (fun x hx => by
              rcases List.mem_singleton.mp hx with rfl
              exact hrest _ (List.mem_cons_self _ rest)))
          (offset % actualRooms))
        (fun x hx => hrest x (List.mem_cons_of_mem s hx)) m hm

lemma seedClass_good {P : Student → Prop} {numRooms minQ : Nat}
    {acc : List StudentMap} {className : String} {shuffled : List Student}
    (hacc : ∀ m ∈ acc, MapGood P m) (hsh : ∀ s ∈ shuffled, P s) :
    ∀ m ∈ seedClass numRooms minQ acc className shuffled, MapGood P m := by
  simp only [seedClass]
  split
  · exact set_forall hacc (mapPush_good (getD_good hacc 0) hsh) 0
  · refine roundRobin_good _ 0 _ ?_ (fun s hs => hsh s (List.mem_of_mem_drop hs))
    refine foldl_preserve (fun (a : List StudentMap) => ∀ m ∈ a, MapGood P m) _ _ _ hacc ?_
    intro a i _ ha
    exact set_forall ha
      (mapPush_good (getD_good ha i)
        (fun s hs => hsh s (List.mem_of_mem_drop (List.mem_of_mem_take hs)))) i

lemma mergeRoom_good {P : Student → Prop} {m : StudentMap} (hm : MapGood P m) :
    ∀ s ∈ mergeRoom m, P s := by
  unfold mergeRoom
  refine foldl_preserve (fun (l : List Student) => ∀ s ∈ l, P s) _ m []
    (fun s hs => absurd hs (List.not_mem_nil s)) ?_
  intro l e he hl s hs
  rcases List.mem_append.mp hs with h | h
  · exact hl s h
  · exact hm e he s h

lemma backScan_good {P : Student → Prop} (minQ wanted : Nat) :
    ∀ (i : Nat) (room : List Student) (counts : CountMap) (toMove : List Student),
      (∀ s ∈ room, P s) → (∀ s ∈ toMove, P s) →
      (∀ s ∈ (backScan minQ wanted room counts toMove i).fst, P s) ∧
      (∀ s ∈ (backScan minQ wanted room counts toMove i).snd.snd, P s) := by
  intro i
  induction i with
  | zero =>
      intro room counts toMove hroom hmove
      exact ⟨hroom, hmove⟩
  | succ i ih =>
      intro room counts toMove hroom hmove
      simp only [backScan]
      split
      · split
        next s hg =>
          split
          · exact ih (room.eraseIdx i) _ (s :: toMove)
              (fun x hx => hroom x (List.eraseIdx_subset room i hx))
              (fun x hx => by
                rcases List.mem_cons.mp hx with rfl | h
                · exact hroom _ (List.get?_mem hg)
                · exact hmove x h)
          · exact ih room counts toMove hroom hmove
        next hg => exact ih room counts toMove hroom hmove
      · exact ⟨hroom, hmove⟩

lemma phase3Room_good {P : Student → Prop} {minQ : Nat} {roomSizes : List Nat}
    {numRooms : Nat} {st : List (List Student) × List CountMap}
    (hst : RoomsGood P st.fst) (roomIndex : Nat) :
    RoomsGood P (phase3Room minQ roomSizes numRooms st roomIndex).fst := by
  intro room hroom s hs
  simp only [phase3Room] at hroom
  split at hroom
  · have hscan := backScan_good minQ
      ((st.fst.getD roomIndex []).length - roomSizes.getD roomIndex 0)
      (st.fst.getD roomIndex []).length (st.fst.getD roomIndex [])
      (st.snd.getD roomIndex []) []
      (getD_room_good hst roomIndex) (fun x hx => absurd hx (List.not_mem_nil x))
    have hr1 : RoomsGood P (st.fst.set roomIndex
        (backScan minQ
          ((st.fst.getD roomIndex []).length - roomSizes.getD roomIndex 0)
          (st.fst.getD roomIndex []) (st.snd.getD roomIndex [])
          [] (st.fst.getD roomIndex []).length).fst) :=
      set_forall hst hscan.1 roomIndex
    split at hroom
    · rcases List.mem_or_eq_of_mem_set hroom with h | h
      · exact hr1 room h s hs
      · subst h
        rcases List.mem_append.mp hs with h2 | h2
        · exact hscan.2 s h2
        · exact getD_room_good hr1 (roomIndex + 1) s h2
    · exact hr1 room hroom s hs
  · exact hst room hroom s hs

lemma phase4Pull_good {P : Student → Prop} {minQ : Nat} {roomSizes : List Nat}
    {roomIndex needed : Nat} {st : List (List Student) × List CountMap}
    (hst : RoomsGood P st.fst) (nextRoomIndex : Nat) :
    RoomsGood P (phase4Pull minQ roomSizes roomIndex needed st nextRoomIndex).fst := by
  intro room hroom s hs
  simp only [phase4Pull] at hroom
  have hscan := backScan_good minQ
      (min needed ((st.fst.getD nextRoomIndex []).length - roomSizes.getD nextRoomIndex 0))
      (st.fst.getD nextRoomIndex []).length (st.fst.getD nextRoomIndex [])
      (st.snd.getD nextRoomIndex []) []
      (getD_room_good hst nextRoomIndex) (fun x hx => absurd hx (List.not_mem_nil x))
  split at hroom
  · rcases List.mem_or_eq_of_mem_set hroom with h | h
    · rcases List.mem_or_eq_of_mem_set h with h2 | h2
      · exact hst room h2 s hs
      · subst h2
        exact hscan.1 s hs
    · subst h
      rcases List.mem_append.mp hs with h2 | h2
      · exact getD_room_good hst roomIndex s h2
      · exact hscan.2 s h2
  · exact hst room hroom s hs

lemma phase4Room_good {P : Student → Prop} {minQ : Nat} {roomSizes : List Nat}
    {numRooms : Nat} {st : List (List Student) × List CountMap}
    (hst : RoomsGood P st.fst) (roomIndex : Nat) :
    RoomsGood P (phase4Room minQ roomSizes numRooms st roomIndex).fst := by
  simp only [phase4Room]
  split
  · refine foldl_preserve (fun (st' : List (List Student) × List CountMap) => RoomsGood P st'.fst) _ _ _ hst ?_
    intro st' j _ h
    exact phase4Pull_good h j
  · exact hst

lemma chunksBySizes_good {P : Student → Prop} {l : List Student}
    (hl : ∀ s ∈ l, P s) :
    ∀ (sizes : List Nat) (idx : Nat), RoomsGood P (chunksBySizes l idx sizes) := by
  intro sizes
  induction sizes with
  | nil => intro idx room hroom; exact absurd hroom (List.not_mem_nil room)
  | cons size rest ih =>
      intro idx room hroom s hs
      rcases List.mem_cons.mp hroom with rfl | h
      · exact hl s (List.mem_of_mem_drop (List.mem_of_mem_take hs))
      · exact ih (idx + size) room h s hs

lemma distribute_all {P : Student → Prop} (students : List Student) (g : String)
    (spr : Nat) (strat : String) (rng : PartRng)
    (hP : ∀ s ∈ students, P s) (hrng : RngMem rng) :
    RoomsGood P (distributeStudentsWithMinPerClass students g spr strat rng) := by
  obtain ⟨hr0, hrc, hrr⟩ := hrng
  simp only [distributeStudentsWithMinPerClass]
  split
  · exact chunksBySizes_good (fun s hs => hP s (hr0 students s hs)) _ 0
  · refine foldl_preserve
      (fun (st : List (List Student) × List CountMap) => RoomsGood P st.fst) _ _ _ ?_
      (fun st' j _ h => phase4Room_good h j)
    refine foldl_preserve
      (fun (st : List (List Student) × List CountMap) => RoomsGood P st.fst) _ _ _ ?_
      (fun st' j _ h => phase3Room_good h j)
    intro room hroom s hs
    rw [List.mem_map] at hroom
    obtain ⟨e, he, rfl⟩ := hroom
    have hs2 := hrr e.fst (mergeRoom e.snd) s hs
    have hseeded : e.snd ∈ (groupByClass students).enum.foldl
        (fun acc e2 => seedClass
          (calculateRoomDistribution students.length spr strat).length
          (minPerClassFor g) acc e2.snd.fst (rng.classShuffle e2.fst e2.snd.snd))
        (List.replicate (calculateRoomDistribution students.length spr strat).length []) := by
      have := List.mem_map_of_mem Prod.snd he
      rwa [List.enum_map_snd] at this
    have HM : MapGood P e.snd := by
      refine foldl_preserve (fun (a : List StudentMap) => ∀ m ∈ a, MapGood P m) _ _ _ ?_ ?_ e.snd hseeded
      · intro m hm
        rw [List.eq_of_mem_replicate hm]
        exact fun e2 he2 => absurd he2 (List.not_mem_nil e2)
      · intro a e2 he2 ha
        refine seedClass_good ha ?_
        intro x hx
        have hgrp : e2.snd ∈ groupByClass students := by
          have := List.mem_map_of_mem Prod.snd he2
          rwa [List.enum_map_snd] at this
        exact groupByClass_good hP e2.snd hgrp x (hrc e2.fst e2.snd.snd x hx)
    exact mergeRoom_good HM s hs2

/-! ## The exam identifier composition -/

set_option maxHeartbeats 2000000 in
lemma pad2_len : ∀ x < 100, (pad2 x).length = 2 := by decide

set_option maxHeartbeats 16000000 in
lemma pad2_inj : ∀ x < 100, ∀ y < 100, pad2 x = pad2 y → x = y := by decide

lemma string_length_data (t : String) : t.length = t.data.length := rfl

lemma examIdOf_inj {gp : List (String × String)} {g : String} {r s r' s' : Nat}
    (hr : r < 100) (hs : s < 100) (hr' : r' < 100) (hs' : s' < 100)
    (h : examIdOf gp g r s = examIdOf gp g r' s') : r = r' ∧ s = s' := by
  unfold examIdOf at h
  have hd := congrArg String.data h
  rw [String.data_append, String.data_append, String.data_append,
    String.data_append, List.append_assoc, List.append_assoc] at hd
  have hlen : (pad2 r).data.length = (pad2 r').data.length := by
    rw [← string_length_data, ← string_length_data, pad2_len r hr, pad2_len r' hr']
  obtain ⟨h1, h2⟩ := List.append_inj (List.append_cancel_left hd) hlen
  exact ⟨pad2_inj r hr r' hr' (String.ext h1), pad2_inj s hs s' hs' (String.ext h2)⟩

lemma room_examIds {room : List Student} {gp : List (String × String)} {g : String}
    (hroomg : ∀ s ∈ room, s.grade = g) (rn : Nat) (picks : Nat → Nat) :
    ∀ p ∈ assignSeatsSmartly room gp rn room.length picks,
      p.examId = examIdOf gp g rn p.seatNumber ∧
        1 ≤ p.seatNumber ∧ p.seatNumber ≤ room.length + 5 := by
  intro p hp
  obtain ⟨hs, -, hval⟩ := assignFinal_inv room gp rn room.length picks
  have hp' : p ∈ seatsOf (assignFinal room gp rn room.length picks).grid := hp
  obtain ⟨c, hc, r, hr, hget⟩ := mem_seatsOf hp'
  rw [gridCols_of_shape hs] at hc
  rw [hs.1] at hr
  obtain ⟨st', hst', rfl⟩ := hval r c p hget
  have hsn : (mkSeat gp rn st' r c ((room.length + 5) / 6)).seatNumber =
      c * ((room.length + 5) / 6) + r + 1 := rfl
  have hex : (mkSeat gp rn st' r c ((room.length + 5) / 6)).examId =
      examIdOf gp st'.grade rn (c * ((room.length + 5) / 6) + r + 1) := rfl
  rw [hsn, hex, hroomg st' hst']
  refine ⟨rfl, by omega, ?_⟩
  have hmul : c * ((room.length + 5) / 6) ≤ 5 * ((room.length + 5) / 6) :=
    Nat.mul_le_mul_right _ (by omega)
  have hd6 : 6 * ((room.length + 5) / 6) ≤ room.length + 5 := by omega
  omega

lemma room_examIds_nodup {room : List Student} {gp : List (String × String)}
    {g : String} (hroomg : ∀ s ∈ room, s.grade = g) (rn : Nat) (picks : Nat → Nat)
    (hrn : rn < 100) (hlen : room.length ≤ 94) :
    ((assignSeatsSmartly room gp rn room.length picks).map
        (fun p => p.examId)).Pairwise (· ≠ ·) := by
  obtain ⟨hs, -, hval⟩ := assignFinal_inv room gp rn room.length picks
  have hv : ∀ r c s,
      gridGet (assignFinal room gp rn room.length picks).grid r c = some s →
        s.seatNumber = c * ((room.length + 5) / 6) + r + 1 := by
    intro r c s h
    obtain ⟨st', -, rfl⟩ := hval r c s h
    rfl
  have hpw : ((assignSeatsSmartly room gp rn room.length picks).map
      (fun p => p.seatNumber)).Pairwise (· < ·) := seatsOf_pairwise hs hv
  rw [List.pairwise_map] at hpw ⊢
  refine List.Pairwise.imp_of_mem ?_ hpw
  intro p q hp hq hlt
  obtain ⟨hep, hp1, hp2⟩ := room_examIds hroomg rn picks p hp
  obtain ⟨heq2, hq1, hq2⟩ := room_examIds hroomg rn picks q hq
  rw [hep, heq2]
  intro hcontra
  obtain ⟨-, hsn⟩ := examIdOf_inj hrn (by omega) hrn (by omega) hcontra
  omega

/-! ## Evaluation of the allocator on the identity-collision roster -/

lemma c4group : groupByClass c4students = c4ByClass := by
  have h := group_blocks c4blocks [] (by decide) (by simp) (by decide)
  simpa [groupByClass, c4students, c4ByClass] using h

lemma c4len : c4students.length = 1404 := by
  rw [c4students, List.length_flatMap]
  decide

lemma c4minq : minPerClassFor "八年级" = 4 := rfl

set_option maxHeartbeats 1000000 in
lemma c4sizesEq : calculateRoomDistribution 1404 13 "last" = c4sizes := by decide

lemma c4sizesLen : c4sizes.length = 108 := by decide

set_option maxHeartbeats 16000000 in
lemma c4phase3all :
    ∀ i ∈ List.range 108,
      phase3Room 4 c4sizes 108 (c4roomsLit, c4countsLit) i =
        (c4roomsLit, c4countsLit) := by decide

lemma c4phase3 :
    (List.range 108).foldl (phase3Room 4 c4sizes 108) (c4roomsLit, c4countsLit) =
      (c4roomsLit, c4countsLit) :=
  foldl_id _ _ _ c4phase3all

set_option maxHeartbeats 16000000 in
lemma c4phase4all :
    ∀ i ∈ List.range 108,
      phase4Room 4 c4sizes 108 (c4roomsLit, c4countsLit) i =
        (c4roomsLit, c4countsLit) := by decide

lemma c4phase4 :
    (List.range 108).foldl (phase4Room 4 c4sizes 108) (c4roomsLit, c4countsLit) =
      (c4roomsLit, c4countsLit) :=
  foldl_id _ _ _ c4phase4all

set_option maxHeartbeats 32000000 in
lemma c4seedBoth :
    (let seeded := c4ByClass.enum.foldl
        (fun acc e => seedClass 108 4 acc e.snd.fst e.snd.snd)
        (List.replicate 108 []);
      (seeded.enum.map (fun e => mergeRoom e.snd), seeded.map countsOf)) =
      (c4roomsLit, c4countsLit) := by decide

lemma c4merge :
    (c4ByClass.enum.foldl
        (fun acc e => seedClass 108 4 acc e.snd.fst e.snd.snd)
        (List.replicate 108 [])).enum.map (fun e => mergeRoom e.snd) = c4roomsLit :=
  congrArg Prod.fst c4seedBoth

lemma c4countsEq :
    (c4ByClass.enum.foldl
        (fun acc e => seedClass 108 4 acc e.snd.fst e.snd.snd)
        (List.replicate 108 [])).map countsOf = c4countsLit :=
  congrArg Prod.snd c4seedBoth

set_option maxHeartbeats 4000000 in
theorem c4dist_eq :
    distributeStudentsWithMinPerClass c4students "八年级" 13 "last" idRng = c4roomsLit := by
  simp only [distributeStudentsWithMinPerClass, c4group, c4len, c4minq, c4sizesEq,
    c4sizesLen, idRng]
  rw [if_neg (by decide : ¬((4 : Nat) = 0))]
  simp only [c4merge, c4countsEq, c4phase3, c4phase4]

/-- Claim C4 counterexample: on the 1404-member 八年级 roster of 26 class
blocks, with capacity 13 and strategy last and the identity random
behaviour, room 10 (seat 101) and room 101 (seat 1) both produce the exam
identifier 08011 + 10 + 101 = 08011 + 101 + 01 = 0801110101: two distinct
placements of one partition share an identity, because padStart(2) does not
bound the field widths once room or seat numbers reach 100. -/
theorem c4collision :
    (let out := gradeSeating c4students "八年级" defaultGradePrefixes 13 "last" idRng;
      (((out.getD 9 ⟨0, [], ""⟩).students.map (fun s => s.examId)).contains "0801110101" = true) ∧
      (((out.getD 100 ⟨0, [], ""⟩).students.map (fun s => s.examId)).contains "0801110101" = true) ∧
      (out.getD 9 ⟨0, [], ""⟩).roomNumber = 10 ∧
      (out.getD 100 ⟨0, [], ""⟩).roomNumber = 101 ∧
      (out.getD 9 ⟨0, [], ""⟩).grade = (out.getD 100 ⟨0, [], ""⟩).grade) := by
  simp only [gradeSeating, c4dist_eq]
  decide

/-! ## Claims C1, C2, C5 -/

/-- Claim C1 (code bug): on a roster of 13 members of one 八年级 class with
capacity 8 and strategy separate, the allocator returns rooms holding 12
members in total: phase 3 splices a movable member out of the last room and
the next-room guard then drops it, so one member is lost. -/
theorem c1_lost_student :
    c1students.length = 13 ∧
      ((distributeStudentsWithMinPerClass c1students "八年级" 8 "separate" idRng).map
        List.length).sum = 12 := by
  constructor
  · decide
  · decide

/-- Claim C2 (code bug): on a 八年级 roster with class A of 7 and class B of
8, capacity 8, strategy separate, rebalancing moves 3 class-A members into
room 2: that room then holds 3 members of A, fewer than the quota 4, while
A has 7 members in the partition, so A neither meets the quota there nor
holds all its members. -/
theorem c2_quota_violated :
    (let rooms := distributeStudentsWithMinPerClass c2students "八年级" 8 "separate" idRng;
      c2students.countP (fun s => s.className = "A") = 7 ∧
      (rooms.getD 1 []).countP (fun s => s.className = "A") = 3 ∧
      (rooms.getD 1 []).length = 7 ∧
      minPerClassFor "八年级" = 4 ∧ rooms.length = 2) := by
  decide

/-- Claim C5 counterexample: with totalCount 100, capacity 36 and the last
strategy, RoomSizer does not return the sequence the claim states. -/
theorem c5_not_packLast_claim :
    calculateRoomDistribution 100 36 "last" ≠ [36, 36, 28] := by decide

/-- Claim C5 (amended): with totalCount 100, capacity 36 and the last
strategy the remainder is merged into the final full room, yielding
[36, 64]; the sequence [36, 36, 28] is what the separate strategy returns. -/
theorem c5_amended :
    calculateRoomDistribution 100 36 "last" = [36, 64] ∧
      calculateRoomDistribution 100 36 "separate" = [36, 36, 28] := by
  constructor
  · decide
  · decide

/-! ## Claim C3: seat numbering -/

/-- Claim C3 counterexample: a 7-member room gets a 2x6 grid; the assigner
fills row 0 and cell (1,0), and the column-major seat numbers are
[1, 2, 3, 5, 7, 9, 11]: pairwise distinct but not the contiguous range
1..gridRows*6 = 1..12 the claim states. -/
theorem c3_not_contiguous :
    c3students.length = 7 ∧ (c3students.length + 5) / 6 = 2 ∧
    (assignSeatsSmartly c3students defaultGradePrefixes 1 c3students.length
        (fun x => 0)).map (fun s => s.seatNumber) = [1, 2, 3, 5, 7, 9, 11] ∧
    (assignSeatsSmartly c3students defaultGradePrefixes 1 c3students.length
        (fun x => 0)).map (fun s => s.seatNumber) ≠
      (List.range (2 * 6)).map (fun i => i + 1) := by decide

/-- Claim C3 (amended): in every room's output the seat numbers are strictly
increasing (hence pairwise distinct), each lies in 1..6*gridRows with the
column in 1..6, and when the room size is a multiple of 6 the grid is full,
so the seat numbers are exactly the contiguous range 1..roomSize.
Contiguity does not hold for every room size: the 7-member room of the
counterexample leaves gaps. -/
theorem c3_amended (students : List Student) (gp : List (String × String))
    (rn : Nat) (picks : Nat → Nat) :
    ((assignSeatsSmartly students gp rn students.length picks).map
        (fun s => s.seatNumber)).Pairwise (· < ·) ∧
    (∀ s ∈ assignSeatsSmartly students gp rn students.length picks,
        1 ≤ s.seatNumber ∧ s.seatNumber ≤ 6 * ((students.length + 5) / 6) ∧
        1 ≤ s.col ∧ s.col ≤ 6) ∧
    (students.length % 6 = 0 →
      (assignSeatsSmartly students gp rn students.length picks).map
          (fun s => s.seatNumber) =
        (List.range students.length).map (fun i => i + 1)) := by
  obtain ⟨hs, -, hval⟩ := assignFinal_inv students gp rn students.length picks
  set rows := (students.length + 5) / 6 with hrows
  set G := (assignFinal students gp rn students.length picks).grid with hG
  have hout : assignSeatsSmartly students gp rn students.length picks = seatsOf G := rfl
  have hv : ∀ r c s, gridGet G r c = some s → s.seatNumber = c * rows + r + 1 := by
    intro r c s h
    obtain ⟨st', -, rfl⟩ := hval r c s h
    rfl
  refine ⟨?_, ?_, ?_⟩
  · rw [hout]
    exact seatsOf_pairwise hs hv
  · intro s hsin
    rw [hout] at hsin
    obtain ⟨c, hc, r, hr, hget⟩ := mem_seatsOf hsin
    rw [gridCols_of_shape hs] at hc
    rw [hs.1] at hr
    obtain ⟨st', -, rfl⟩ := hval r c s hget
    have hcol : (mkSeat gp rn st' r c rows).col = c + 1 := rfl
    have hsn : (mkSeat gp rn st' r c rows).seatNumber = c * rows + r + 1 := rfl
    rw [hcol, hsn]
    have hmul : c * rows ≤ 5 * rows := Nat.mul_le_mul_right rows (by omega)
    omega
  · intro h6
    have hfull : ∀ c ∈ List.range 6, ∀ r ∈ List.range rows,
        ∃ s, gridGet G r c = some s ∧ s.seatNumber = c * rows + r + 1 := by
      intro c hc r hr
      have hne : gridGet G r c ≠ none := by
        rw [hG]
        exact assignFinal_occupied students gp rn students.length picks (by omega)
          r (List.mem_range.mp hr) c (List.mem_range.mp hc)
      cases hg : gridGet G r c with
      | none => exact absurd hg hne
      | some s => exact ⟨s, rfl, hv r c s hg⟩
    rw [hout]
    unfold seatsOf
    rw [List.map_flatMap, gridCols_of_shape hs, hs.1]
    have hLrw : students.length = 6 * rows := by omega
    rw [hLrw, ← range_flatMap_mul 6 rows, List.map_flatMap]
    refine List.flatMap_congr fun c hc => ?_
    rw [filterMap_all_values (fun r => c * rows + r + 1) (List.range rows)
      (fun r hr => hfull c hc r hr), List.map_map]
    rfl

/-- Witness for the amended C3 claim: a 36-member room gets a full 6x6
grid whose seat numbers are exactly 1..36. -/
theorem c3_amended_witness :
    (assignSeatsSmartly c3students36 defaultGradePrefixes 1 c3students36.length
        (fun x => 0)).map (fun s => s.seatNumber) =
      (List.range c3students36.length).map (fun i => i + 1) :=
  (c3_amended c3students36 defaultGradePrefixes 1 (fun x => 0)).2.2 (by decide)

/-! ## Claim C9: adjacency -/

/-- Claim C9 counterexample: three classes of four members in a 12-seat
room; no class exceeds gridWidth*gridRows/numGroups = 12/3 = 4, yet the
greedy assigner paints row 0 as ABABAB, starts row 1 with BA, and is then
forced to seat the four C members consecutively: three horizontally
adjacent same-class pairs, not zero. -/
theorem c9_forced_adjacency :
    c9students.length = 12 ∧
    (groupByClass c9students).length = 3 ∧
    (∀ e ∈ groupByClass c9students,
      e.snd.length ≤
        6 * ((c9students.length + 5) / 6) / (groupByClass c9students).length) ∧
    adjacentSameClassPairs
      (finalGrid c9students defaultGradePrefixes 1 c9students.length (fun x => 0)) = 3 := by
  decide

/-- Claim C9 (amended): whenever the assigner finishes a room without ever
taking its final random-fallback branch (and every member carries a
non-empty class label), the resulting grid has zero horizontally or
vertically adjacent same-class pairs.  The class-share threshold of the
claim does not guarantee this: the fallback can fire below it, as the
counterexample shows. -/
theorem c9_amended (students : List Student) (gp : List (String × String))
    (rn maxSeats : Nat) (picks : Nat → Nat)
    (hcls : ∀ s ∈ students, s.className ≠ "")
    (hfb : (assignFinal students gp rn maxSeats picks).fallback = false) :
    adjacentSameClassPairs (finalGrid students gp rn maxSeats picks) = 0 := by
  apply adjacentSameClassPairs_eq_zero
  exact assignFold_noadj (cellList ((maxSeats + 5) / 6))
    { grid := mkGrid ((maxSeats + 5) / 6), pool := students, fallback := false }
    (fun cell hc => mem_cellList.mp hc) (mkGrid_shape _) hcls
    (fun r c s hg => by rw [gridGet_mkGrid] at hg; cases hg)
    (fun r c a b ha => by rw [gridGet_mkGrid] at ha; cases ha)
    hfb

/-- Witness for the amended C9 claim: two classes of two members each are
laid out ABAB in one row with no fallback and no adjacent same-class pair. -/
theorem c9_amended_witness :
    adjacentSameClassPairs
      (finalGrid c9good defaultGradePrefixes 1 c9good.length (fun x => 0)) = 0 :=
  c9_amended c9good defaultGradePrefixes 1 c9good.length (fun x => 0)
    (by decide) (by decide)

/-! ## Claim C6: the average strategy -/

/-- Claim C6 counterexample: with totalCount = capacity = 36 the remainder
is zero and RoomSizer returns the single full room [36] before ever
consulting the strategy, not the floor(36/36) + 1 = 2 rooms the claim
requires of the average strategy. -/
theorem c6_not_average_claim :
    calculateRoomDistribution 36 36 "average" = [36] ∧
      (calculateRoomDistribution 36 36 "average").length ≠ 36 / 36 + 1 := by decide

/-- Claim C6 (amended): when the capacity does not divide the total, the
average strategy yields floor(totalCount/capacity) + 1 rooms summing to
totalCount, sizes pairwise within one of each other and nonincreasing
(front rooms receive the extra unit first); when the capacity divides the
total, the remainder-zero branch fires first and returns
totalCount/capacity rooms of exactly capacity instead. -/
theorem c6_amended (T c : Nat) (hT : 1 ≤ T) (hc : 1 ≤ c) :
    (T % c = 0 →
      calculateRoomDistribution T c "average" = List.replicate (T / c) c) ∧
    (T % c ≠ 0 →
      (calculateRoomDistribution T c "average").length = T / c + 1 ∧
      (calculateRoomDistribution T c "average").sum = T ∧
      (calculateRoomDistribution T c "average").Pairwise
        (fun a b => b ≤ a ∧ a ≤ b + 1)) := by
  constructor
  · intro h0
    simp only [calculateRoomDistribution]
    rw [if_pos h0]
  · intro hrem
    simp only [calculateRoomDistribution]
    rw [if_neg hrem, if_neg (by decide : ¬(("average" : String) = "last")),
      if_neg (by decide : ¬(("average" : String) = "separate"))]
    refine ⟨by simp, ?_, ?_⟩
    · rw [sum_base_extra]
      have hk : 0 < T / c + 1 := Nat.succ_pos _
      have hdm := Nat.div_add_mod T (T / c + 1)
      have hmod := Nat.mod_lt T hk
      rw [Nat.min_eq_right (Nat.le_of_lt hmod)]
      exact hdm
    · rw [List.pairwise_map]
      refine (List.pairwise_lt_range _).imp ?_
      intro i j hij
      constructor <;> by_cases hi : i < T % (T / c + 1) <;>
        by_cases hj : j < T % (T / c + 1) <;> simp [hi, hj] <;> omega

/-- Witness for the amended C6 claim: 100 members at capacity 36 yield
three rooms [34, 33, 33] summing to 100. -/
theorem c6_amended_witness :
    (calculateRoomDistribution 100 36 "average").length = 100 / 36 + 1 ∧
    (calculateRoomDistribution 100 36 "average").sum = 100 ∧
    (calculateRoomDistribution 100 36 "average").Pairwise
      (fun a b => b ≤ a ∧ a ≤ b + 1) :=
  (c6_amended 100 36 (by decide) (by decide)).2 (by decide)

/-! ## Claim C7: output ordering -/

/-- Claim C7 counterexample: two partitions 甲 and 乙 unknown to the grade
ordering, two one-member rooms each; the final sort compares every
arrangement equal at index -1 and orders by room number alone, so the
partitions come out interleaved rather than 甲's rooms before 乙's as the
claimed encounter-order fallback dictates. -/
theorem c7_interleaved :
    (postArrangements c7input (fun i => idRng)).map
        (fun a => (a.grade, a.roomNumber)) =
      [("甲", 1), ("乙", 1), ("甲", 2), ("乙", 2)] ∧
    (postArrangements c7input (fun i => idRng)).map
        (fun a => (a.grade, a.roomNumber)) ≠
      [("甲", 1), ("甲", 2), ("乙", 1), ("乙", 2)] := by decide

/-- Claim C7 (amended): the final arrangement list is sorted by the
comparator preorder: known partitions by their position in the grade
ordering, every unknown partition collapsed to index -1 (hence placed
before all known partitions and interleaved with other unknown ones by
room number only), and ties ordered by room number ascending. -/
theorem c7_amended (input : GenerateInput) (rng : Nat → PartRng) :
    List.Sorted arrLE (postArrangements input rng) := by
  unfold postArrangements
  cases hp : POST input rng with
  | error e => exact List.sorted_nil
  | ok o =>
      simp only [POST] at hp
      by_cases h1 : input.students.length = 0
      · rw [if_pos h1] at hp
        exact Except.noConfusion hp
      · rw [if_neg h1] at hp
        by_cases h2 : input.studentsPerRoom < 1 ∨ 72 < input.studentsPerRoom
        · rw [if_pos h2] at hp
          exact Except.noConfusion hp
        · rw [if_neg h2] at hp
          injection hp with h
          rw [← h]
          exact List.sorted_insertionSort arrLE _

/-! ## Claim C8: validation -/

/-- Claim C8: the POST handler returns an error exactly when the roster is
empty or the capacity lies outside 1..72, and an error response carries no
arrangements at all; both checks precede any allocation work. -/
theorem c8_validation (input : GenerateInput) (rng : Nat → PartRng) :
    ((∃ e, POST input rng = Except.error e) ↔
      (input.students.length = 0 ∨
        input.studentsPerRoom < 1 ∨ 72 < input.studentsPerRoom)) ∧
    ((∃ e, POST input rng = Except.error e) → postArrangements input rng = []) := by
  constructor
  · constructor
    · rintro ⟨e, he⟩
      unfold POST at he
      by_cases h1 : input.students.length = 0
      · exact Or.inl h1
      · rw [if_neg h1] at he
        by_cases h2 : input.studentsPerRoom < 1 ∨ 72 < input.studentsPerRoom
        · exact Or.inr h2
        · rw [if_neg h2] at he
          exact Except.noConfusion he
    · intro h
      unfold POST
      by_cases h1 : input.students.length = 0
      · rw [if_pos h1]
        exact ⟨_, rfl⟩
      · rw [if_neg h1]
        have h2 : input.studentsPerRoom < 1 ∨ 72 < input.studentsPerRoom := by
          rcases h with h | h
          · exact absurd h h1
          · exact h
        rw [if_pos h2]
        exact ⟨_, rfl⟩
  · rintro ⟨e, he⟩
    unfold postArrangements
    rw [he]

/-- Witness for C8: the empty roster is rejected and yields no
arrangements. -/
theorem c8_validation_witness :
    (∃ e, POST emptyInput (fun i => idRng) = Except.error e) ∧
      postArrangements emptyInput (fun i => idRng) = [] :=
  ⟨(c8_validation emptyInput (fun i => idRng)).1.mpr (Or.inl rfl),
   (c8_validation emptyInput (fun i => idRng)).2
     ((c8_validation emptyInput (fun i => idRng)).1.mpr (Or.inl rfl))⟩

/-! ## Claim C4: the amended uniqueness statement -/

/-- Claim C4 (amended): within one partition the exam identifiers are
pairwise distinct as long as the two padded fields cannot overflow their
width, that is while the partition has at most 99 rooms and every room at
most 94 members (seat numbers then stay below 100); the counterexample
shows distinctness fails as soon as a room or seat number reaches 100. -/
theorem c4_amended (students : List Student) (g : String)
    (gp : List (String × String)) (spr : Nat) (strat : String) (rng : PartRng)
    (hg : ∀ s ∈ students, s.grade = g) (hrng : RngMem rng)
    (hrooms : (distributeStudentsWithMinPerClass students g spr strat rng).length ≤ 99)
    (hsize : ∀ room ∈ distributeStudentsWithMinPerClass students g spr strat rng,
      room.length ≤ 94) :
    ((gradeSeating students g gp spr strat rng).flatMap
        (fun a => a.students.map (fun p => p.examId))).Pairwise (· ≠ ·) := by
  have hgood : RoomsGood (fun s => s.grade = g)
      (distributeStudentsWithMinPerClass students g spr strat rng) :=
    distribute_all students g spr strat rng hg hrng
  simp only [gradeSeating, List.flatMap_map]
  set RL := distributeStudentsWithMinPerClass students g spr strat rng with hRL
  have hli : ∀ i, (RL.getD i []).length ≤ 94 := by
    intro i
    rcases getD_mem_or RL i [] with h | h
    · exact hsize _ h
    · rw [h]
      simp
  rw [List.pairwise_flatMap]
  constructor
  · intro i hi
    refine room_examIds_nodup (getD_room_good hgood i) (i + 1) (rng.roomPicks i)
      ?_ (hli i)
    have := List.mem_range.mp hi
    omega
  · refine List.Pairwise.imp_of_mem ?_ (List.pairwise_lt_range _)
    intro i j hi hj hij x hx y hy
    rw [List.mem_map] at hx hy
    obtain ⟨p, hp, rfl⟩ := hx
    obtain ⟨q, hq, rfl⟩ := hy
    obtain ⟨hep, hp1, hp2⟩ :=
      room_examIds (getD_room_good hgood i) (i + 1) (rng.roomPicks i) p hp
    obtain ⟨heq2, hq1, hq2⟩ :=
      room_examIds (getD_room_good hgood j) (j + 1) (rng.roomPicks j) q hq
    rw [hep, heq2]
    have hibound := List.mem_range.mp hi
    have hjbound := List.mem_range.mp hj
    have hpli := hli i
    have hplj := hli j
    intro hcontra
    obtain ⟨hrn, -⟩ := examIdOf_inj (by omega) (by omega) (by omega) (by omega) hcontra
    omega

/-- Witness for the amended C4 claim: the two-member 七年级 partition is
seated with pairwise distinct exam identifiers. -/
theorem c4_amended_witness :
    ((gradeSeating smallInput.students "七年级" defaultGradePrefixes 36 "last"
        idRng).flatMap
      (fun a => a.students.map (fun p => p.examId))).Pairwise (· ≠ ·) :=
  c4_amended smallInput.students "七年级" defaultGradePrefixes 36 "last" idRng
    (by decide) ⟨fun l x h => h, fun i l x h => h, fun i l x h => h⟩
    (by decide) (by decide)

/-! ## Claim C10: the implicit quota table -/

/-- Claim C10: the per-group quota is a pure function of the partition
label — 4 for 八年级, 5 for 九年级, 0 for every other label — and a zero
quota sends the allocator down the quota-free path: one shuffle cut into
the room-size chunks, no caller-supplied configuration consulted. -/
theorem c10_quota_by_grade :
    minPerClassFor "八年级" = 4 ∧ minPerClassFor "九年级" = 5 ∧
    (∀ g, g ≠ "八年级" → g ≠ "九年级" → minPerClassFor g = 0) ∧
    (∀ (students : List Student) (g : String) (spr : Nat) (strat : String)
        (rng : PartRng), g ≠ "八年级" → g ≠ "九年级" →
      distributeStudentsWithMinPerClass students g spr strat rng =
        chunksBySizes (rng.shuffle0 students) 0
          (calculateRoomDistribution students.length spr strat)) := by
  have hq : ∀ g, g ≠ "八年级" → g ≠ "九年级" → minPerClassFor g = 0 := by
    intro g h8 h9
    unfold minPerClassFor
    rw [if_neg h8, if_neg h9]
  refine ⟨rfl, rfl, hq, fun students g spr strat rng h8 h9 => ?_⟩
  simp only [distributeStudentsWithMinPerClass, hq g h8 h9]
  simp

/-- Witness for C10: grade 七年级 has quota zero and takes the quota-free
path on the small input. -/
theorem c10_quota_witness :
    minPerClassFor "七年级" = 0 ∧
    distributeStudentsWithMinPerClass smallInput.students "七年级" 36 "last" idRng =
      chunksBySizes (idRng.shuffle0 smallInput.students) 0
        (calculateRoomDistribution smallInput.students.length 36 "last") :=
  ⟨c10_quota_by_grade.2.2.1 "七年级" (by decide) (by decide),
   c10_quota_by_grade.2.2.2 smallInput.students "七年级" 36 "last" idRng
     (by decide) (by decide)⟩

end ExamSeating
